import Mathlib

/-!
A shallow embedding of the Farrington-Manning rate-difference test
(`farrington_manning.py`) over the real numbers, together with theorems
checking its natural-language specification against the code.

Modelling conventions, mirroring the Python/NumPy semantics of the source:

* Machine floats are modelled as real numbers.  The IEEE NaN value is
  modelled by `none` in `Option ℝ` (abbreviated `F` below): `np.mean` of an
  empty sequence yields NaN (with a warning, not an exception), and every
  later arithmetic operation or `math`-module call propagates NaN to NaN
  (`math.sqrt`, `math.acos`, `math.cos` all return NaN on NaN input without
  raising).
* Exceptions are modelled by `Except PyErr`.  Integer division by zero
  (`theta = n2 / n1` with `n1 = 0`) raises `ZeroDivisionError`;
  `math.sqrt` on a negative real argument and `math.acos` on a real
  argument outside `[-1, 1]` (or on an infinite argument) raise
  `ValueError` (math domain error); `scipy.optimize.brentq` raises
  `ValueError` when the target has the same nonzero sign at the two
  bracket endpoints.
* Since `u = np.sign(v) * sqrt(...)` is NumPy-typed, the division
  `v / u ** 3` never raises: with `u = 0` it produces NaN (when `v = 0`)
  or an infinity (when `v ≠ 0`, in which case the following `math.acos`
  raises the domain error).  Divisions between NumPy floats whose
  denominator is zero are collapsed to the NaN marker here; no statement
  below depends on distinguishing IEEE infinities from NaN.
-/

namespace FM

noncomputable section

/-- The failure conditions the Python code can produce: `ZeroDivisionError`
from `theta = n2 / n1`; `ValueError` (math domain error) from `math.sqrt` or
`math.acos`; the explicit `ValueError` raised for an unrecognized
`alternative`; and the `ValueError` raised by `scipy.optimize.brentq` when
`f(a)` and `f(b)` have the same nonzero sign. -/
inductive PyErr where
  | zeroDivision
  | mathDomain
  | invalidAlternative
  | noSignChange
  deriving DecidableEq, Repr

/-- A Python float value: `none` models IEEE NaN, `some x` a (finite) real. -/
abbrev F := Option ℝ

/-- Float subtraction; NaN propagates. -/
def fsub : F → F → F
  | some a, some b => some (a - b)
  | _, _ => none

/-- Float multiplication; NaN propagates. -/
def fmul : F → F → F
  | some a, some b => some (a * b)
  | _, _ => none

/-- NaN-aware negation. -/
def fneg : F → F := Option.map fun a => -a

/-- NumPy-typed float division: NaN propagates, and a zero denominator
produces a non-real value (NaN/±inf, collapsed to the NaN marker). -/
noncomputable def fdiv : F → F → F
  | some a, some b => if b = 0 then none else some (a / b)
  | _, _ => none

/-- Python `min` of two floats of the same NaN-ness. -/
def fmin : F → F → F
  | some a, some b => some (min a b)
  | _, _ => none

/-- The standard normal density. -/
noncomputable def gaussPDF (t : ℝ) : ℝ :=
  (Real.sqrt (2 * Real.pi))⁻¹ * Real.exp (-(t ^ 2 / 2))

/-- The standard normal cumulative distribution function (SciPy's
`norm.cdf`). -/
noncomputable def Phi (z : ℝ) : ℝ := ∫ t in Set.Iic z, gaussPDF t

/-- `norm.cdf` lifted to floats; NaN propagates. -/
noncomputable def normCdf : F → F := Option.map Phi

/-- `norm.sf` (survival function, the upper-tail probability) lifted to
floats; NaN propagates. -/
noncomputable def normSf : F → F := Option.map fun z => 1 - Phi z

/-! ### The restricted-MLE solver `_get_sd_diff_ML_null` (source lines 10-45)

The intermediate quantities of the solver, as functions of
`theta = n2 / n1` and the remaining arguments, named after the local
variables of the source. -/

/-- `theta = n2 / n1` (line 32), as a real; the solver guards `n1 = 0`
separately because the Python integer division raises there. -/
def thetaOf (n1 n2 : ℕ) : ℝ := (n2 : ℝ) / (n1 : ℝ)

/-- `a = 1 + theta` (line 36). -/
def aOf (th : ℝ) : ℝ := 1 + th

/-- `b = -(1 + theta + p1_ml + theta * p2_ml + delta * (theta + 2))` (line 35). -/
def bOf (th p1 p2 delta : ℝ) : ℝ := -(1 + th + p1 + th * p2 + delta * (th + 2))

/-- `c = delta^2 + delta * (2 * p1_ml + theta + 1) + p1_ml + theta * p2_ml` (line 34). -/
def cOf (th p1 p2 delta : ℝ) : ℝ :=
  delta ^ 2 + delta * (2 * p1 + th + 1) + p1 + th * p2

/-- `d = -p1_ml * delta * (1 + delta)` (line 33). -/
def dOf (p1 delta : ℝ) : ℝ := -p1 * delta * (1 + delta)

/-- `v = b^3 / (27 a^3) - b c / (6 a^2) + d / (2 a)` (line 37). -/
def vOf (th p1 p2 delta : ℝ) : ℝ :=
  bOf th p1 p2 delta ^ 3 / (27 * aOf th ^ 3)
    - bOf th p1 p2 delta * cOf th p1 p2 delta / (6 * aOf th ^ 2)
    + dOf p1 delta / (2 * aOf th)

/-- The radicand `b^2 / (9 a^2) - c / (3 a)` of line 38. -/
def discOf (th p1 p2 delta : ℝ) : ℝ :=
  bOf th p1 p2 delta ^ 2 / (9 * aOf th ^ 2) - cOf th p1 p2 delta / (3 * aOf th)

/-- The line-37 combination `v` as a function of abstract cubic
coefficients; `vOf` is this applied to the line 33-36 coefficients. -/
def vExpr (A B C D : ℝ) : ℝ :=
  B ^ 3 / (27 * A ^ 3) - B * C / (6 * A ^ 2) + D / (2 * A)

/-- The line-38 radicand as a function of abstract cubic coefficients;
`discOf` is this applied to the line 34-36 coefficients. -/
def dExpr (A B C : ℝ) : ℝ := B ^ 2 / (9 * A ^ 2) - C / (3 * A)

/-- `u = np.sign(v) * sqrt(b^2 / (9 a^2) - c / (3 a))` (line 38). -/
noncomputable def uOf (th p1 p2 delta : ℝ) : ℝ :=
  Real.sign (vOf th p1 p2 delta) * Real.sqrt (discOf th p1 p2 delta)

/-- `p1_ML_null = 2 u cos((pi + acos(v / u^3)) / 3) - b / (3 a)` (lines 39-40). -/
noncomputable def p1NullOf (th p1 p2 delta : ℝ) : ℝ :=
  2 * uOf th p1 p2 delta *
      Real.cos ((Real.pi + Real.arccos (vOf th p1 p2 delta / uOf th p1 p2 delta ^ 3)) / 3)
    - bOf th p1 p2 delta / (3 * aOf th)

/-- The radicand of line 42:
`p1_ML_null (1 - p1_ML_null) / n1 + p2_ML_null (1 - p2_ML_null) / n2`
with `p2_ML_null = p1_ML_null - delta` (line 41). -/
noncomputable def radOf (n1 n2 : ℕ) (th p1 p2 delta : ℝ) : ℝ :=
  p1NullOf th p1 p2 delta * (1 - p1NullOf th p1 p2 delta) / n1
    + (p1NullOf th p1 p2 delta - delta) * (1 - (p1NullOf th p1 p2 delta - delta)) / n2

/-- `_get_sd_diff_ML_null` (lines 10-45).  Failure analysis of the source:
`theta = n2 / n1` raises `ZeroDivisionError` when `n1 = 0`; a NaN
proportion (mean of an empty group) propagates through every following
operation to a NaN return value; `math.sqrt` raises the domain error when
the line-38 radicand is negative; with `v = 0` the NumPy division
`v / u ** 3` is `0/0 = NaN` and the function returns NaN; with `v ≠ 0` but
a zero discriminant the division yields an infinity and `math.acos` raises;
`math.acos` also raises when the real argument `v / u^3` leaves `[-1, 1]`;
finally `math.sqrt` on line 42 raises if its radicand is negative. -/
noncomputable def sd_diff_ML_null (n1 n2 : ℕ) (p1m p2m : F) (delta : ℝ) :
    Except PyErr F :=
  if n1 = 0 then .error .zeroDivision
  else
    match p1m, p2m with
    | some p1, some p2 =>
      let th := thetaOf n1 n2
      if discOf th p1 p2 delta < 0 then .error .mathDomain
      else if vOf th p1 p2 delta = 0 then .ok none
      else if discOf th p1 p2 delta = 0 then .error .mathDomain
      else if vOf th p1 p2 delta / uOf th p1 p2 delta ^ 3 < -1 ∨
          1 < vOf th p1 p2 delta / uOf th p1 p2 delta ^ 3 then .error .mathDomain
      else if radOf n1 n2 th p1 p2 delta < 0 then .error .mathDomain
      else .ok (some (Real.sqrt (radOf n1 n2 th p1 p2 delta)))
    | _, _ => .ok none

/-- `_get_z` (lines 48-64): `(diff_ml - delta) / sd_diff`. -/
noncomputable def get_z (diff_ml : F) (delta : ℝ) (sd_diff : F) : F :=
  fdiv (fsub diff_ml (some delta)) sd_diff

/-- `_get_ci` (lines 67-86): `2 * min(norm.sf(z), norm.cdf(z)) - alpha_mod`
at `z = _get_z(diff_ml, delta, sd_diff)`. -/
noncomputable def get_ci (delta : ℝ) (diff_ml : F) (sd_diff : F) (alpha_mod : ℝ) : F :=
  fsub
    (fmul (some 2)
      (fmin (normSf (get_z diff_ml delta sd_diff)) (normCdf (get_z diff_ml delta sd_diff))))
    (some alpha_mod)

/-- The scalar function the entry point hands to `brentq` (lines 158-163):
`_get_ci` with `diff_ml`, the once-computed `sd_diff_ml_null` and
`alpha_mod` frozen by the `args` tuple, as a function of the candidate
delta. -/
noncomputable def codeCiTarget (diff_ml sd : F) (alpha_mod : ℝ) : ℝ → F :=
  fun d => get_ci d diff_ml sd alpha_mod

/-- Model of the external bracketed root-finder: the point
`scipy.optimize.brentq` reports, some point of the bracket (the root when
one exists). -/
noncomputable def brentqPick (f : ℝ → F) (x1 x2 : ℝ) : ℝ :=
  letI := Classical.propDecidable (∃ x ∈ Set.uIcc x1 x2, f x = some 0)
  if h : ∃ x ∈ Set.uIcc x1 x2, f x = some 0 then h.choose else x1

/-- Model of `scipy.optimize.brentq` on the target contract stated by the
spec (§6): it raises `ValueError` when the target has the same nonzero
sign at the bracket endpoints (`if fpre * fcur > 0` in the C source, a
comparison that is false when an endpoint value is NaN) and otherwise
returns a point of the bracket. -/
noncomputable def brentq (f : ℝ → F) (x1 x2 : ℝ) : Except PyErr ℝ :=
  match f x1, f x2 with
  | some f1, some f2 =>
    if 0 < f1 * f2 then .error .noSignChange else .ok (brentqPick f x1 x2)
  | _, _ => .ok (brentqPick f x1 x2)

/-- Python's `str.casefold` restricted to its ASCII behavior (the
alternatives are ASCII): lower-case every upper-case letter. -/
def lowerChar (c : Char) : Char :=
  if c.isUpper then Char.ofNat (c.toNat + 32) else c

/-- `alternative.casefold()` (lines 143, 151, 153, 157). -/
def casefold (s : String) : String := ⟨s.data.map lowerChar⟩

/-- `np.mean` of a boolean vector coerced to ints: the proportion of `true`
entries, and NaN for an empty vector. -/
def meanB (g : List Bool) : F :=
  if g.length = 0 then none else some ((g.count true : ℝ) / (g.length : ℝ))

def twoSidedStr : String := "two-sided"

def greaterStr : String := "greater"

def lessStr : String := "less"

/-- An upper-case spelling of `greater`, used to check case-insensitivity. -/
def upperGreaterStr : String := "GREATER"

/-- An unrecognized alternative. -/
def bogusStr : String := "bogus"

/-- The recognized alternatives (line 143). -/
def validAlternatives : List String := [twoSidedStr, greaterStr, lessStr]

/-- Group 1 of the size-16 test scenario: 12 successes, 4 failures. -/
def g116 : List Bool := List.replicate 12 true ++ List.replicate 4 false

/-- Group 2 of the size-16 test scenario: 16 failures. -/
def g216 : List Bool := List.replicate 16 false

/-- The returned record (lines 164-169). -/
structure FMResult where
  rate_difference : F
  z_statistic : F
  p_value : F
  ci_lower : ℝ
  ci_upper : ℝ

instance : Inhabited FMResult := ⟨⟨none, none, none, 0, 0⟩⟩

/-- The p-value dispatch on the case-folded alternative (lines 151-156);
the final `else` branch of the source is the `less` case. -/
noncomputable def pValueOf (alt : String) (z : F) : F :=
  if casefold alt = twoSidedStr then fmul (some 2) (fmin (normSf z) (normCdf z))
  else if casefold alt = greaterStr then normSf z
  else normCdf z

/-- `alpha_mod` (line 157): `alpha` for the two-sided alternative, else
`2 * alpha`. -/
def alphaModOf (alt : String) (alpha : ℝ) : ℝ :=
  if casefold alt = twoSidedStr then alpha else 2 * alpha

/-- The two `brentq` calls of lines 158-163, on the target built from the
frozen `args` tuple, bracketed by `[-1 + 1e-6, diff_ml]` and
`[diff_ml, 1 - 1e-06]`.  When `diff_ml` is NaN (empty `group2`), the
bracket endpoints handed to `brentq` are NaN; the sign test inside
`brentq` compares with NaN and does not trigger, and the iteration
terminates returning a point, so no exception is raised — that case is
modelled by returning finite placeholder bounds directly. -/
noncomputable def fmCI (tgt : ℝ → F) : F → Except PyErr (ℝ × ℝ)
  | none => .ok (-1 + 1e-6, 1 - 1e-06)
  | some dr =>
    (brentq tgt (-1 + 1e-6) dr).bind fun lo =>
      (brentq tgt dr (1 - 1e-06)).bind fun hi => .ok (lo, hi)

/-- `farrington_manning` (lines 89-170). -/
noncomputable def farrington_manning (g1 g2 : List Bool) (delta : ℝ)
    (alternative : String) (alpha : ℝ) : Except PyErr FMResult :=
  if casefold alternative ∉ validAlternatives then .error .invalidAlternative
  else
    (sd_diff_ML_null g1.length g2.length (meanB g1) (meanB g2) delta).bind fun sd =>
      let diff := fsub (meanB g1) (meanB g2)
      let z := get_z diff delta sd
      let pv := pValueOf alternative z
      let am := alphaModOf alternative alpha
      (fmCI (codeCiTarget diff sd am) diff).bind fun ci =>
        .ok ⟨diff, z, pv, ci.1, ci.2⟩

/-- Modelled from the spec: §4.4's root-finding target `f(δ)` in which
`sd_null(δ)` is recomputed by the §4.2 solver at each candidate `δ` (the
spec's words: "sd_null(δ) is recomputed per §4.2 for each candidate δ"),
for comparison with `codeCiTarget`. -/
noncomputable def specCiTarget (n1 n2 : ℕ) (p1m p2m : F) (diff_ml : F)
    (alpha_mod : ℝ) (d : ℝ) : Except PyErr F :=
  (sd_diff_ML_null n1 n2 p1m p2m d).map fun s => get_ci d diff_ml s alpha_mod

/-- The record returned by the size-16 scenario run
(`g116`, `g216`, `delta = 1/2`, two-sided, `alpha = 1/10`). -/
noncomputable def res16A : FMResult :=
  ⟨some (3 / 4), some 2, some (2 * min (1 - Phi 2) (Phi 2)),
    brentqPick (codeCiTarget (some (3 / 4)) (some (1 / 8)) (1 / 10)) (-1 + 1e-6) (3 / 4),
    brentqPick (codeCiTarget (some (3 / 4)) (some (1 / 8)) (1 / 10)) (3 / 4) (1 - 1e-06)⟩

/-- The record returned by the group-swapped size-16 scenario run. -/
noncomputable def res16B : FMResult :=
  ⟨some (-(3 / 4)), some (-2), some (2 * min (1 - Phi (-2)) (Phi (-2))),
    brentqPick (codeCiTarget (some (-(3 / 4))) (some (1 / 8)) (1 / 10)) (-1 + 1e-6)
      (-(3 / 4)),
    brentqPick (codeCiTarget (some (-(3 / 4))) (some (1 / 8)) (1 / 10)) (-(3 / 4))
      (1 - 1e-06)⟩

/-! ### Facts about the standard normal distribution -/

lemma two_pi_pos : (0 : ℝ) < 2 * Real.pi := by positivity

lemma sqrt_two_pi_pos : 0 < Real.sqrt (2 * Real.pi) := Real.sqrt_pos.mpr two_pi_pos

lemma gaussPDF_pos (t : ℝ) : 0 < gaussPDF t := by
  unfold gaussPDF
  positivity

lemma gaussPDF_nonneg (t : ℝ) : 0 ≤ gaussPDF t := (gaussPDF_pos t).le

lemma gaussPDF_eq : gaussPDF = fun t => (Real.sqrt (2 * Real.pi))⁻¹ *
    Real.exp (-(1 / 2) * t ^ 2) := by
  funext t
  unfold gaussPDF
  rw [show (-(t ^ 2 / 2) : ℝ) = -(1 / 2) * t ^ 2 from by ring]

lemma integrable_gaussPDF : MeasureTheory.Integrable gaussPDF := by
  rw [gaussPDF_eq]
  exact (integrable_exp_neg_mul_sq (show (0 : ℝ) < 1 / 2 by norm_num)).const_mul
      (Real.sqrt (2 * Real.pi))⁻¹

lemma integral_gaussPDF : ∫ t, gaussPDF t = 1 := by
  have h : (∫ t : ℝ, Real.exp (-(1 / 2) * t ^ 2)) = Real.sqrt (Real.pi / (1 / 2)) :=
    integral_gaussian (1 / 2)
  rw [gaussPDF_eq, MeasureTheory.integral_mul_left, h,
    show Real.pi / (1 / 2) = 2 * Real.pi from by ring]
  exact inv_mul_cancel₀ (ne_of_gt sqrt_two_pi_pos)

lemma Phi_add_Ioi (z : ℝ) : Phi z + ∫ t in Set.Ioi z, gaussPDF t = 1 := by
  have h := MeasureTheory.integral_add_compl (measurableSet_Iic (a := z)) integrable_gaussPDF
  rw [Set.compl_Iic] at h
  rw [Phi, h, integral_gaussPDF]

lemma tail_eq (z : ℝ) : ∫ t in Set.Ioi z, gaussPDF t = 1 - Phi z := by
  linarith [Phi_add_Ioi z]

lemma Phi_mono {z1 z2 : ℝ} (h : z1 ≤ z2) : Phi z1 ≤ Phi z2 := by
  unfold Phi
  refine MeasureTheory.setIntegral_mono_set integrable_gaussPDF.integrableOn
    (Filter.Eventually.of_forall fun t => gaussPDF_nonneg t) ?_
  exact Filter.Eventually.of_forall fun t (ht : t ≤ z1) => le_trans ht h

lemma Phi_reflect (z : ℝ) : Phi (-z) = 1 - Phi z := by
  have h1 : Phi (-z) = ∫ t in Set.Iic (-z), gaussPDF (-t) := by
    unfold Phi
    refine MeasureTheory.setIntegral_congr_fun measurableSet_Iic fun t _ => ?_
    unfold gaussPDF
    rw [neg_pow]
    norm_num
  rw [h1, integral_comp_neg_Iic (-z) gaussPDF, neg_neg, tail_eq]

lemma Phi_zero : Phi 0 = 1 / 2 := by
  have h := Phi_reflect 0
  rw [neg_zero] at h
  linarith

/-- The Mills-type tail bound: for `z > 0` the upper tail is at most
`gaussPDF z / z`. -/
lemma tail_le_mills {z : ℝ} (hz : 0 < z) :
    (∫ t in Set.Ioi z, gaussPDF t) ≤ gaussPDF z / z := by
  have hpt : ∀ t ∈ Set.Ioi z, gaussPDF t ≤ gaussPDF z * Real.exp (-z * (t - z)) := by
    intro t _
    unfold gaussPDF
    rw [mul_assoc, ← Real.exp_add]
    have harg : -(t ^ 2 / 2) ≤ -(z ^ 2 / 2) + -z * (t - z) := by
      nlinarith [sq_nonneg (t - z)]
    have h0 : (0 : ℝ) ≤ (Real.sqrt (2 * Real.pi))⁻¹ := (inv_pos.mpr sqrt_two_pi_pos).le
    exact mul_le_mul_of_nonneg_left (Real.exp_le_exp.mpr harg) h0
  have hfun : ∀ t : ℝ, gaussPDF z * Real.exp (z * z) * Real.exp (-(z * t))
      = gaussPDF z * Real.exp (-z * (t - z)) := by
    intro t
    rw [mul_assoc, ← Real.exp_add, show z * z + -(z * t) = -z * (t - z) from by ring]
  have hInt2 : MeasureTheory.IntegrableOn
      (fun t => gaussPDF z * Real.exp (-z * (t - z))) (Set.Ioi z) := by
    have h := (exp_neg_integrableOn_Ioi z hz).const_mul (gaussPDF z * Real.exp (z * z))
    refine MeasureTheory.IntegrableOn.congr_fun h (fun t _ => ?_) measurableSet_Ioi
    rw [neg_mul]
    exact hfun t
  have hmono : (∫ t in Set.Ioi z, gaussPDF t)
      ≤ ∫ t in Set.Ioi z, gaussPDF z * Real.exp (-z * (t - z)) :=
    MeasureTheory.setIntegral_mono_on integrable_gaussPDF.integrableOn hInt2
      measurableSet_Ioi hpt
  have hval : (∫ t in Set.Ioi z, gaussPDF z * Real.exp (-z * (t - z)))
      = gaussPDF z / z := by
    have hsplit : (∫ t in Set.Ioi z, gaussPDF z * Real.exp (-z * (t - z)))
        = gaussPDF z * Real.exp (z * z) * ∫ t in Set.Ioi z, Real.exp (-(z * t)) := by
      rw [← MeasureTheory.integral_mul_left]
      refine MeasureTheory.setIntegral_congr_fun measurableSet_Ioi fun t _ => ?_
      exact (hfun t).symm
    have hc : (∫ t in Set.Ioi z, Real.exp (-(z * t)))
        = z⁻¹ * ∫ x in Set.Ioi (z * z), Real.exp (-x) := by
      have h := MeasureTheory.integral_comp_mul_left_Ioi (fun y => Real.exp (-y)) z hz
      simpa [smul_eq_mul] using h
    rw [hsplit, hc, integral_exp_neg_Ioi, Real.exp_neg]
    have hE : Real.exp (z * z) ≠ 0 := Real.exp_ne_zero _
    field_simp
    ring
  linarith

/-- Lower bound on upper tails at points left of 1, through the mass of the
interval `(1, 2]`. -/
lemma tail_ge_pdf2 {z : ℝ} (hz : z ≤ 1) :
    gaussPDF 2 ≤ ∫ t in Set.Ioi z, gaussPDF t := by
  have hsub : Set.Ioc (1 : ℝ) 2 ⊆ Set.Ioi z := fun t ht => lt_of_le_of_lt hz ht.1
  have h1 : (∫ t in Set.Ioc (1 : ℝ) 2, gaussPDF t) ≤ ∫ t in Set.Ioi z, gaussPDF t :=
    MeasureTheory.setIntegral_mono_set integrable_gaussPDF.integrableOn
      (Filter.Eventually.of_forall fun t => gaussPDF_nonneg t)
      (Filter.Eventually.of_forall fun t ht => hsub ht)
  have h2 : gaussPDF 2 ≤ ∫ t in Set.Ioc (1 : ℝ) 2, gaussPDF t := by
    have hconst : (∫ _t in Set.Ioc (1 : ℝ) 2, gaussPDF 2) = gaussPDF 2 := by
      rw [MeasureTheory.setIntegral_const, Real.volume_Ioc]
      norm_num
    rw [← hconst]
    refine MeasureTheory.setIntegral_mono_on
      (MeasureTheory.integrableOn_const.mpr ?_) integrable_gaussPDF.integrableOn
      measurableSet_Ioc (fun t ht => ?_)
    · right
      rw [Real.volume_Ioc]
      norm_num
    · unfold gaussPDF
      have h0 : (0 : ℝ) ≤ (Real.sqrt (2 * Real.pi))⁻¹ := (inv_pos.mpr sqrt_two_pi_pos).le
      refine mul_le_mul_of_nonneg_left (Real.exp_le_exp.mpr ?_) h0
      nlinarith [ht.1.le, ht.2]
  linarith

/-! Numeric bounds on the constants appearing in the concrete scenarios. -/

lemma sqrt_two_pi_lt : Real.sqrt (2 * Real.pi) < 2.5067 := by
  rw [Real.sqrt_lt' (by norm_num)]
  nlinarith [Real.pi_lt_d6]

lemma sqrt_two_pi_gt : (2.5 : ℝ) < Real.sqrt (2 * Real.pi) := by
  rw [Real.lt_sqrt (by norm_num)]
  nlinarith [Real.pi_gt_d2]

lemma exp_two_lt : Real.exp 2 < 7.389057 := by
  have h := Real.exp_one_lt_d9
  have h2 : Real.exp 2 = Real.exp 1 * Real.exp 1 := by
    rw [← Real.exp_add]
    norm_num
  nlinarith [Real.exp_pos 1]

lemma exp_four_gt : (50 : ℝ) < Real.exp 4 := by
  have h := Real.exp_one_gt_d9
  have h2 : Real.exp 4 = Real.exp 1 * Real.exp 1 * Real.exp 1 * Real.exp 1 := by
    rw [← Real.exp_add, ← Real.exp_add, ← Real.exp_add]
    norm_num
  have h3 : (7.389 : ℝ) < Real.exp 1 * Real.exp 1 := by nlinarith
  nlinarith [h3, Real.exp_pos 1]

lemma gaussPDF_two_gt : (1 : ℝ) / 40 < gaussPDF 2 := by
  unfold gaussPDF
  rw [show -((2 : ℝ) ^ 2 / 2) = -2 by norm_num, Real.exp_neg, ← mul_inv]
  have hX : Real.sqrt (2 * Real.pi) * Real.exp 2 < 40 := by
    nlinarith [sqrt_two_pi_pos, exp_two_lt, sqrt_two_pi_lt, Real.exp_pos 2]
  have hXpos : 0 < Real.sqrt (2 * Real.pi) * Real.exp 2 := by
    positivity
  rw [show ((1 : ℝ) / 40) = (40 : ℝ)⁻¹ by norm_num]
  exact inv_strictAnti₀ hXpos hX

lemma inv_sqrt_two_pi_le : (Real.sqrt (2 * Real.pi))⁻¹ ≤ 1 / 2.5 := by
  rw [show ((1 : ℝ) / 2.5) = (2.5 : ℝ)⁻¹ by norm_num]
  exact (inv_le_inv₀ sqrt_two_pi_pos (by norm_num)).mpr sqrt_two_pi_gt.le

/-- The upper tail at `6.999996` is below `1/40`. -/
lemma tail_small : 1 - Phi 6.999996 < 1 / 40 := by
  rw [← tail_eq]
  have hm := tail_le_mills (show (0 : ℝ) < 6.999996 by norm_num)
  have hexp : Real.exp (-(6.999996 ^ 2 / 2)) ≤ 1 / 50 := by
    have h1 : Real.exp (-(6.999996 ^ 2 / 2)) ≤ Real.exp (-4) :=
      Real.exp_le_exp.mpr (by norm_num)
    have h2 : Real.exp (-4) ≤ 1 / 50 := by
      rw [Real.exp_neg, show ((1 : ℝ) / 50) = (50 : ℝ)⁻¹ by norm_num]
      exact (inv_le_inv₀ (Real.exp_pos 4) (by norm_num)).mpr exp_four_gt.le
    linarith
  have hpdf : gaussPDF 6.999996 ≤ 1 / 2.5 * (1 / 50) := by
    unfold gaussPDF
    have h0 : (0 : ℝ) ≤ (Real.sqrt (2 * Real.pi))⁻¹ := (inv_pos.mpr sqrt_two_pi_pos).le
    calc (Real.sqrt (2 * Real.pi))⁻¹ * Real.exp (-(6.999996 ^ 2 / 2))
        ≤ (Real.sqrt (2 * Real.pi))⁻¹ * (1 / 50) := by
          exact mul_le_mul_of_nonneg_left hexp h0
      _ ≤ 1 / 2.5 * (1 / 50) := by
          exact mul_le_mul_of_nonneg_right inv_sqrt_two_pi_le (by norm_num)
  calc (∫ t in Set.Ioi (6.999996 : ℝ), gaussPDF t)
      ≤ gaussPDF 6.999996 / 6.999996 := hm
    _ ≤ (1 / 2.5 * (1 / 50)) / 6.999996 := by gcongr
    _ < 1 / 40 := by norm_num

/-- The upper tail at `0.999996` is above `1/40`. -/
lemma tail_near_one_gt : 1 / 40 < 1 - Phi 0.999996 := by
  rw [← tail_eq]
  calc (1 : ℝ) / 40 < gaussPDF 2 := gaussPDF_two_gt
    _ ≤ ∫ t in Set.Ioi (0.999996 : ℝ), gaussPDF t := tail_ge_pdf2 (by norm_num)

/-! ### Evaluating the solver on its branches -/

/-- With a nonzero `v`, the trigonometric argument `v / u^3` equals
`|v| / (sqrt disc)^3`, because `u` carries the sign of `v`. -/
lemma trig_arg_eq {th p1 p2 delta : ℝ} (hv : vOf th p1 p2 delta ≠ 0) :
    vOf th p1 p2 delta / uOf th p1 p2 delta ^ 3
      = |vOf th p1 p2 delta| / Real.sqrt (discOf th p1 p2 delta) ^ 3 := by
  unfold uOf
  rcases lt_or_gt_of_ne hv with h | h
  · rw [Real.sign_of_neg h, abs_of_neg h]
    ring
  · rw [Real.sign_of_pos h, abs_of_pos h]
    ring

/-- When `disc^3 < v^2` (and `v ≠ 0`, `disc > 0`) the trigonometric
argument exceeds `1`. -/
lemma trig_arg_out_of_range {th p1 p2 delta : ℝ} (hv : vOf th p1 p2 delta ≠ 0)
    (hd : 0 < discOf th p1 p2 delta)
    (hdom : discOf th p1 p2 delta ^ 3 < vOf th p1 p2 delta ^ 2) :
    1 < vOf th p1 p2 delta / uOf th p1 p2 delta ^ 3 := by
  rw [trig_arg_eq hv]
  have hs : 0 < Real.sqrt (discOf th p1 p2 delta) := Real.sqrt_pos.mpr hd
  have hs3 : 0 < Real.sqrt (discOf th p1 p2 delta) ^ 3 := by positivity
  have hsq : (Real.sqrt (discOf th p1 p2 delta) ^ 3) ^ 2 = discOf th p1 p2 delta ^ 3 := by
    rw [← pow_mul, show 3 * 2 = 2 * 3 from rfl, pow_mul, Real.sq_sqrt hd.le]
  have habs : Real.sqrt (discOf th p1 p2 delta) ^ 3 < |vOf th p1 p2 delta| := by
    nlinarith [abs_nonneg (vOf th p1 p2 delta), sq_abs (vOf th p1 p2 delta)]
  exact (one_lt_div hs3).mpr habs

/-- Evaluation of the solver in its regular final branch. -/
lemma sd_eval_main {n1 n2 : ℕ} {th p1 p2 delta : ℝ} (hth : thetaOf n1 n2 = th)
    (hn : n1 ≠ 0)
    (h1 : ¬ discOf th p1 p2 delta < 0)
    (h2 : vOf th p1 p2 delta ≠ 0)
    (h3 : discOf th p1 p2 delta ≠ 0)
    (h4 : ¬ (vOf th p1 p2 delta / uOf th p1 p2 delta ^ 3 < -1 ∨
        1 < vOf th p1 p2 delta / uOf th p1 p2 delta ^ 3))
    (h5 : ¬ radOf n1 n2 th p1 p2 delta < 0) :
    sd_diff_ML_null n1 n2 (some p1) (some p2) delta
      = .ok (some (Real.sqrt (radOf n1 n2 th p1 p2 delta))) := by
  subst hth
  unfold sd_diff_ML_null
  simp only [if_neg hn, if_neg h1, if_neg h2, if_neg h3, if_neg h4, if_neg h5]

/-- Evaluation of the solver in its `v = 0` branch: the `0/0` division
produces NaN and the NaN propagates to the returned value. -/
lemma sd_eval_nan {n1 n2 : ℕ} {th p1 p2 delta : ℝ} (hth : thetaOf n1 n2 = th)
    (hn : n1 ≠ 0) (h1 : ¬ discOf th p1 p2 delta < 0)
    (h2 : vOf th p1 p2 delta = 0) :
    sd_diff_ML_null n1 n2 (some p1) (some p2) delta = .ok none := by
  subst hth
  unfold sd_diff_ML_null
  simp only [if_neg hn, if_neg h1, if_pos h2]

/-- Evaluation of the solver when the trigonometric argument leaves the
domain of `acos`. -/
lemma sd_eval_domain {n1 n2 : ℕ} {th p1 p2 delta : ℝ} (hth : thetaOf n1 n2 = th)
    (hn : n1 ≠ 0) (h1 : 0 ≤ discOf th p1 p2 delta)
    (h2 : vOf th p1 p2 delta ≠ 0)
    (h3 : discOf th p1 p2 delta ^ 3 < vOf th p1 p2 delta ^ 2) :
    sd_diff_ML_null n1 n2 (some p1) (some p2) delta = .error .mathDomain := by
  subst hth
  unfold sd_diff_ML_null
  rcases eq_or_lt_of_le h1 with h0 | h0
  · simp only [if_neg hn, if_neg (not_lt.mpr h1), if_neg h2, if_pos h0.symm]
  · have h4 := trig_arg_out_of_range h2 h0 h3
    simp only [if_neg hn, if_neg (not_lt.mpr h1), if_neg h2, if_neg (ne_of_gt h0),
      if_pos (Or.inr h4)]

/-- The solver with an empty first group: `theta = n2 / n1` raises
`ZeroDivisionError`. -/
lemma sd_eval_zero_div {n2 : ℕ} {p1m p2m : F} {delta : ℝ} :
    sd_diff_ML_null 0 n2 p1m p2m delta = .error .zeroDivision := by
  unfold sd_diff_ML_null
  simp

lemma theta_44 : thetaOf 4 4 = 1 := by
  unfold thetaOf
  norm_num

lemma theta_nn {n : ℕ} (hn : n ≠ 0) : thetaOf n n = 1 := by
  unfold thetaOf
  exact div_self (Nat.cast_ne_zero.mpr hn)

/-! Scenario A: `p1 = 3/4`, `p2 = 0`, `delta = 1/2` — the cubic has a double
root, all intermediate quantities are rational and `sd = 1/4` exactly. -/

lemma vA : vOf 1 (3 / 4) 0 (1 / 2) = -(125 / 13824) := by
  unfold vOf bOf cOf dOf aOf
  norm_num

lemma discA : discOf 1 (3 / 4) 0 (1 / 2) = 25 / 576 := by
  unfold discOf bOf cOf aOf
  norm_num

lemma uA : uOf 1 (3 / 4) 0 (1 / 2) = -(5 / 24) := by
  unfold uOf
  rw [vA, discA, Real.sign_of_neg (show (-(125 / 13824) : ℝ) < 0 by norm_num),
    show (25 / 576 : ℝ) = (5 / 24) ^ 2 from by norm_num,
    Real.sqrt_sq (by norm_num)]
  norm_num

lemma tA : vOf 1 (3 / 4) 0 (1 / 2) / uOf 1 (3 / 4) 0 (1 / 2) ^ 3 = 1 := by
  rw [vA, uA]
  norm_num

lemma p1nA : p1NullOf 1 (3 / 4) 0 (1 / 2) = 1 / 2 := by
  unfold p1NullOf
  rw [tA, Real.arccos_one, add_zero, Real.cos_pi_div_three, uA]
  unfold bOf aOf
  norm_num

lemma radA : radOf 4 4 1 (3 / 4) 0 (1 / 2) = 1 / 16 := by
  unfold radOf
  rw [p1nA]
  norm_num

lemma sdA : sd_diff_ML_null 4 4 (some (3 / 4)) (some 0) (1 / 2) = .ok (some (1 / 4)) := by
  rw [sd_eval_main theta_44 (by norm_num) (by rw [discA]; norm_num)
      (by rw [vA]; norm_num) (by rw [discA]; norm_num)
      (by rw [tA]; norm_num) (by rw [radA]; norm_num), radA,
    show (1 / 16 : ℝ) = (1 / 4) ^ 2 from by norm_num, Real.sqrt_sq (by norm_num)]

/-! Scenario B, the group-swapped mirror of A: `p1 = 0`, `p2 = 3/4`,
`delta = -1/2`. -/

lemma vB : vOf 1 0 (3 / 4) (-(1 / 2)) = -(125 / 13824) := by
  unfold vOf bOf cOf dOf aOf
  norm_num

lemma discB : discOf 1 0 (3 / 4) (-(1 / 2)) = 25 / 576 := by
  unfold discOf bOf cOf aOf
  norm_num

lemma uB : uOf 1 0 (3 / 4) (-(1 / 2)) = -(5 / 24) := by
  unfold uOf
  rw [vB, discB, Real.sign_of_neg (show (-(125 / 13824) : ℝ) < 0 by norm_num),
    show (25 / 576 : ℝ) = (5 / 24) ^ 2 from by norm_num,
    Real.sqrt_sq (by norm_num)]
  norm_num

lemma tB : vOf 1 0 (3 / 4) (-(1 / 2)) / uOf 1 0 (3 / 4) (-(1 / 2)) ^ 3 = 1 := by
  rw [vB, uB]
  norm_num

lemma p1nB : p1NullOf 1 0 (3 / 4) (-(1 / 2)) = 0 := by
  unfold p1NullOf
  rw [tB, Real.arccos_one, add_zero, Real.cos_pi_div_three, uB]
  unfold bOf aOf
  norm_num

lemma radB : radOf 4 4 1 0 (3 / 4) (-(1 / 2)) = 1 / 16 := by
  unfold radOf
  rw [p1nB]
  norm_num

lemma sdB : sd_diff_ML_null 4 4 (some 0) (some (3 / 4)) (-(1 / 2)) = .ok (some (1 / 4)) := by
  rw [sd_eval_main theta_44 (by norm_num) (by rw [discB]; norm_num)
      (by rw [vB]; norm_num) (by rw [discB]; norm_num)
      (by rw [tB]; norm_num) (by rw [radB]; norm_num), radB,
    show (1 / 16 : ℝ) = (1 / 4) ^ 2 from by norm_num, Real.sqrt_sq (by norm_num)]

/-! Scenario C: `p1 = 3/4`, `p2 = 0`, candidate `delta = -13/24` — here
`v = 0`, so the solver's `0/0` yields NaN. -/

lemma vC : vOf 1 (3 / 4) 0 (-(13 / 24)) = 0 := by
  unfold vOf bOf cOf dOf aOf
  norm_num

lemma discC : discOf 1 (3 / 4) 0 (-(13 / 24)) = 1225 / 6912 := by
  unfold discOf bOf cOf aOf
  norm_num

lemma sdC : sd_diff_ML_null 4 4 (some (3 / 4)) (some 0) (-(13 / 24)) = .ok none :=
  sd_eval_nan theta_44 (by norm_num) (by rw [discC]; norm_num) vC

/-! Scenario D (claim C3): `p1 = p2 = 1/2`, `delta = 0`, equal group sizes —
again `v = 0`. -/

lemma vD : vOf 1 (1 / 2) (1 / 2) 0 = 0 := by
  unfold vOf bOf cOf dOf aOf
  norm_num

lemma discD : discOf 1 (1 / 2) (1 / 2) 0 = 1 / 12 := by
  unfold discOf bOf cOf aOf
  norm_num

lemma sdD {n : ℕ} (hn : n ≠ 0) :
    sd_diff_ML_null n n (some (1 / 2)) (some (1 / 2)) 0 = .ok none :=
  sd_eval_nan (theta_nn hn) hn (by rw [discD]; norm_num) vD

/-! Scenario E (claim C4 witness): arguments outside the probability range
drive the trigonometric argument out of `[-1, 1]`. -/

lemma vE : vOf 1 (219 / 100) (-(569 / 100)) (1 / 2) = -(657 / 1600) := by
  unfold vOf bOf cOf dOf aOf
  norm_num

lemma discE : discOf 1 (219 / 100) (-(569 / 100)) (1 / 2) = 1 / 100 := by
  unfold discOf bOf cOf aOf
  norm_num

/-! Scenario F (claim C6 witness): `p1 = p2 = 0`, `delta = 0`; every
intermediate quantity has a closed form and `sd = 0`. -/

lemma mean_tttf : meanB [true, true, true, false] = some (3 / 4) := by
  unfold meanB
  norm_num [List.count_cons]

lemma mean_ffff : meanB [false, false, false, false] = some 0 := by
  unfold meanB
  norm_num [List.count_cons]

lemma fsub_some (a b : ℝ) : fsub (some a) (some b) = some (a - b) := rfl

lemma fmul_some (a b : ℝ) : fmul (some a) (some b) = some (a * b) := rfl

lemma fmin_some (a b : ℝ) : fmin (some a) (some b) = some (min a b) := rfl

lemma fdiv_some {b : ℝ} (a : ℝ) (hb : b ≠ 0) : fdiv (some a) (some b) = some (a / b) := by
  simp only [fdiv, if_neg hb]

lemma normSf_some (z : ℝ) : normSf (some z) = some (1 - Phi z) := rfl

lemma normCdf_some (z : ℝ) : normCdf (some z) = some (Phi z) := rfl

lemma get_z_some {s : ℝ} (dr d : ℝ) (hs : s ≠ 0) :
    get_z (some dr) d (some s) = some ((dr - d) / s) := by
  unfold get_z
  rw [fsub_some, fdiv_some _ hs]

lemma get_ci_eval {s : ℝ} (d dr am : ℝ) (hs : s ≠ 0) :
    get_ci d (some dr) (some s) am
      = some (2 * min (1 - Phi ((dr - d) / s)) (Phi ((dr - d) / s)) - am) := by
  unfold get_ci
  rw [get_z_some _ _ hs, normSf_some, normCdf_some, fmin_some, fmul_some, fsub_some]

lemma pval_two_sided (z : F) :
    pValueOf twoSidedStr z = fmul (some 2) (fmin (normSf z) (normCdf z)) := by
  unfold pValueOf
  rw [if_pos (by decide)]

lemma alphaMod_two_sided (alpha : ℝ) : alphaModOf twoSidedStr alpha = alpha := by
  unfold alphaModOf
  rw [if_pos (by decide)]

lemma brentq_ok {f : ℝ → F} {x1 x2 f1 f2 : ℝ} (h1 : f x1 = some f1)
    (h2 : f x2 = some f2) (hs : ¬ 0 < f1 * f2) :
    brentq f x1 x2 = .ok (brentqPick f x1 x2) := by
  unfold brentq
  rw [h1, h2]
  simp only [if_neg hs]

lemma brentq_err {f : ℝ → F} {x1 x2 f1 f2 : ℝ} (h1 : f x1 = some f1)
    (h2 : f x2 = some f2) (hs : 0 < f1 * f2) :
    brentq f x1 x2 = .error .noSignChange := by
  unfold brentq
  rw [h1, h2]
  simp only [if_pos hs]

lemma brentqPick_mem (f : ℝ → F) (x1 x2 : ℝ) :
    brentqPick f x1 x2 ∈ Set.uIcc x1 x2 := by
  unfold brentqPick
  split
  · next h => exact h.choose_spec.1
  · exact Set.left_mem_uIcc

/-! ### The confidence-interval targets of the concrete scenarios -/

lemma tgt_low_A (am : ℝ) :
    codeCiTarget (some (3 / 4)) (some (1 / 4)) am (-1 + 1e-6)
      = some (2 * min (1 - Phi 6.999996) (Phi 6.999996) - am) := by
  unfold codeCiTarget
  rw [get_ci_eval _ _ _ (show (1 / 4 : ℝ) ≠ 0 by norm_num),
    show ((3 : ℝ) / 4 - (-1 + 1e-6)) / (1 / 4) = 6.999996 from by norm_num]

lemma tgt_mid_A (am : ℝ) :
    codeCiTarget (some (3 / 4)) (some (1 / 4)) am (3 / 4) = some (1 - am) := by
  unfold codeCiTarget
  rw [get_ci_eval _ _ _ (show (1 / 4 : ℝ) ≠ 0 by norm_num),
    show ((3 : ℝ) / 4 - 3 / 4) / (1 / 4) = 0 from by norm_num, Phi_zero]
  norm_num

lemma tgt_high_A (am : ℝ) :
    codeCiTarget (some (3 / 4)) (some (1 / 4)) am (1 - 1e-06)
      = some (2 * min (Phi 0.999996) (1 - Phi 0.999996) - am) := by
  unfold codeCiTarget
  rw [get_ci_eval _ _ _ (show (1 / 4 : ℝ) ≠ 0 by norm_num),
    show ((3 : ℝ) / 4 - (1 - 1e-06)) / (1 / 4) = -(0.999996) from by norm_num,
    Phi_reflect]
  norm_num

lemma tgt_low_B (am : ℝ) :
    codeCiTarget (some (-(3 / 4))) (some (1 / 4)) am (-1 + 1e-6)
      = some (2 * min (1 - Phi 0.999996) (Phi 0.999996) - am) := by
  unfold codeCiTarget
  rw [get_ci_eval _ _ _ (show (1 / 4 : ℝ) ≠ 0 by norm_num),
    show ((-(3 / 4) : ℝ) - (-1 + 1e-6)) / (1 / 4) = 0.999996 from by norm_num]

lemma tgt_mid_B (am : ℝ) :
    codeCiTarget (some (-(3 / 4))) (some (1 / 4)) am (-(3 / 4)) = some (1 - am) := by
  unfold codeCiTarget
  rw [get_ci_eval _ _ _ (show (1 / 4 : ℝ) ≠ 0 by norm_num),
    show ((-(3 / 4) : ℝ) - -(3 / 4)) / (1 / 4) = 0 from by norm_num, Phi_zero]
  norm_num

lemma tgt_high_B (am : ℝ) :
    codeCiTarget (some (-(3 / 4))) (some (1 / 4)) am (1 - 1e-06)
      = some (2 * min (Phi 6.999996) (1 - Phi 6.999996) - am) := by
  unfold codeCiTarget
  rw [get_ci_eval _ _ _ (show (1 / 4 : ℝ) ≠ 0 by norm_num),
    show ((-(3 / 4) : ℝ) - (1 - 1e-06)) / (1 / 4) = -(6.999996) from by norm_num,
    Phi_reflect]
  norm_num

/-! ### Sign bounds for the targets -/

lemma two_min_far_small : 2 * min (1 - Phi 6.999996) (Phi 6.999996) < 1 / 20 := by
  have h := min_le_left (1 - Phi 6.999996) (Phi 6.999996)
  have := tail_small
  linarith

lemma two_min_near_gt : 1 / 20 < 2 * min (1 - Phi 0.999996) (Phi 0.999996) := by
  have h1 := tail_near_one_gt
  have h2 : (1 : ℝ) / 40 < Phi 0.999996 := by
    have := Phi_mono (show (0 : ℝ) ≤ 0.999996 by norm_num)
    rw [Phi_zero] at this
    linarith
  have h3 : (1 : ℝ) / 40 < min (1 - Phi 0.999996) (Phi 0.999996) := lt_min h1 h2
  linarith

/-! ### Reduction lemmas for `Except.bind` and `fmCI` -/

lemma ebind_ok {α β : Type} (a : α) (k : α → Except PyErr β) :
    (Except.ok a : Except PyErr α).bind k = k a := rfl

lemma ebind_err {α β : Type} (e : PyErr) (k : α → Except PyErr β) :
    (Except.error e : Except PyErr α).bind k = .error e := rfl

lemma fmCI_none (tgt : ℝ → F) : fmCI tgt none = .ok (-1 + 1e-6, 1 - 1e-06) := rfl

lemma fmCI_some (tgt : ℝ → F) (dr : ℝ) :
    fmCI tgt (some dr)
      = (brentq tgt (-1 + 1e-6) dr).bind fun lo =>
          (brentq tgt dr (1 - 1e-06)).bind fun hi => .ok (lo, hi) := rfl

/-! ### The size-16 scenario: both confidence bounds are found

Groups of 16 with `p1 = 3/4`, `p2 = 0`, `delta = 1/2`, `alpha = 1/10`,
two-sided: `sd = 1/8` exactly, and the root-finding target changes sign on
both brackets. -/

lemma g116_length : g116.length = 16 := by decide

lemma g216_length : g216.length = 16 := by decide

lemma mean_g116 : meanB g116 = some (3 / 4) := by
  unfold meanB
  rw [g116_length]
  norm_num [show g116.count true = 12 from by decide]

lemma mean_g216 : meanB g216 = some 0 := by
  unfold meanB
  rw [g216_length]
  norm_num [show g216.count true = 0 from by decide]

lemma radA16 : radOf 16 16 1 (3 / 4) 0 (1 / 2) = 1 / 64 := by
  unfold radOf
  rw [p1nA]
  norm_num

lemma sdA16 : sd_diff_ML_null 16 16 (some (3 / 4)) (some 0) (1 / 2)
    = .ok (some (1 / 8)) := by
  rw [sd_eval_main (theta_nn (by norm_num)) (by norm_num) (by rw [discA]; norm_num)
      (by rw [vA]; norm_num) (by rw [discA]; norm_num)
      (by rw [tA]; norm_num) (by rw [radA16]; norm_num), radA16,
    show (1 / 64 : ℝ) = (1 / 8) ^ 2 from by norm_num, Real.sqrt_sq (by norm_num)]

lemma radB16 : radOf 16 16 1 0 (3 / 4) (-(1 / 2)) = 1 / 64 := by
  unfold radOf
  rw [p1nB]
  norm_num

lemma sdB16 : sd_diff_ML_null 16 16 (some 0) (some (3 / 4)) (-(1 / 2))
    = .ok (some (1 / 8)) := by
  rw [sd_eval_main (theta_nn (by norm_num)) (by norm_num) (by rw [discB]; norm_num)
      (by rw [vB]; norm_num) (by rw [discB]; norm_num)
      (by rw [tB]; norm_num) (by rw [radB16]; norm_num), radB16,
    show (1 / 64 : ℝ) = (1 / 8) ^ 2 from by norm_num, Real.sqrt_sq (by norm_num)]

/-! Endpoint values of the size-16 targets. -/

lemma tgt16_low_A (am : ℝ) :
    codeCiTarget (some (3 / 4)) (some (1 / 8)) am (-1 + 1e-6)
      = some (2 * min (1 - Phi 13.999992) (Phi 13.999992) - am) := by
  unfold codeCiTarget
  rw [get_ci_eval _ _ _ (show (1 / 8 : ℝ) ≠ 0 by norm_num),
    show ((3 : ℝ) / 4 - (-1 + 1e-6)) / (1 / 8) = 13.999992 from by norm_num]

lemma tgt16_mid_A (am : ℝ) :
    codeCiTarget (some (3 / 4)) (some (1 / 8)) am (3 / 4) = some (1 - am) := by
  unfold codeCiTarget
  rw [get_ci_eval _ _ _ (show (1 / 8 : ℝ) ≠ 0 by norm_num),
    show ((3 : ℝ) / 4 - 3 / 4) / (1 / 8) = 0 from by norm_num, Phi_zero]
  norm_num

lemma tgt16_high_A (am : ℝ) :
    codeCiTarget (some (3 / 4)) (some (1 / 8)) am (1 - 1e-06)
      = some (2 * min (Phi 1.999992) (1 - Phi 1.999992) - am) := by
  unfold codeCiTarget
  rw [get_ci_eval _ _ _ (show (1 / 8 : ℝ) ≠ 0 by norm_num),
    show ((3 : ℝ) / 4 - (1 - 1e-06)) / (1 / 8) = -(1.999992) from by norm_num,
    Phi_reflect]
  norm_num

lemma tgt16_low_B (am : ℝ) :
    codeCiTarget (some (-(3 / 4))) (some (1 / 8)) am (-1 + 1e-6)
      = some (2 * min (1 - Phi 1.999992) (Phi 1.999992) - am) := by
  unfold codeCiTarget
  rw [get_ci_eval _ _ _ (show (1 / 8 : ℝ) ≠ 0 by norm_num),
    show ((-(3 / 4) : ℝ) - (-1 + 1e-6)) / (1 / 8) = 1.999992 from by norm_num]

lemma tgt16_mid_B (am : ℝ) :
    codeCiTarget (some (-(3 / 4))) (some (1 / 8)) am (-(3 / 4)) = some (1 - am) := by
  unfold codeCiTarget
  rw [get_ci_eval _ _ _ (show (1 / 8 : ℝ) ≠ 0 by norm_num),
    show ((-(3 / 4) : ℝ) - -(3 / 4)) / (1 / 8) = 0 from by norm_num, Phi_zero]
  norm_num

lemma tgt16_high_B (am : ℝ) :
    codeCiTarget (some (-(3 / 4))) (some (1 / 8)) am (1 - 1e-06)
      = some (2 * min (Phi 13.999992) (1 - Phi 13.999992) - am) := by
  unfold codeCiTarget
  rw [get_ci_eval _ _ _ (show (1 / 8 : ℝ) ≠ 0 by norm_num),
    show ((-(3 / 4) : ℝ) - (1 - 1e-06)) / (1 / 8) = -(13.999992) from by norm_num,
    Phi_reflect]
  norm_num

/-! Tail bounds at `1.999992` and `13.999992`. -/

lemma exp_three_gt : (20 : ℝ) < Real.exp 3 := by
  have h := Real.exp_one_gt_d9
  have h2 : Real.exp 3 = Real.exp 1 * Real.exp 1 * Real.exp 1 := by
    rw [← Real.exp_add, ← Real.exp_add]
    norm_num
  nlinarith [Real.exp_pos 1]

lemma exp_onehalf_gt : (4.4 : ℝ) < Real.exp 1.5 := by
  have h := exp_three_gt
  have h2 : Real.exp 3 = Real.exp 1.5 * Real.exp 1.5 := by
    rw [← Real.exp_add]
    norm_num
  nlinarith [Real.exp_pos 1.5]

lemma tail_two_lt : 1 - Phi 1.999992 < 1 / 20 := by
  rw [← tail_eq]
  have hm := tail_le_mills (show (0 : ℝ) < 1.999992 by norm_num)
  have hexp : Real.exp (-(1.999992 ^ 2 / 2)) ≤ 1 / 4.4 := by
    have h1 : Real.exp (-(1.999992 ^ 2 / 2)) ≤ Real.exp (-1.5) :=
      Real.exp_le_exp.mpr (by norm_num)
    have h2 : Real.exp (-1.5) ≤ 1 / 4.4 := by
      rw [Real.exp_neg, show ((1 : ℝ) / 4.4) = (4.4 : ℝ)⁻¹ by norm_num]
      exact (inv_le_inv₀ (Real.exp_pos 1.5) (by norm_num)).mpr exp_onehalf_gt.le
    linarith
  have hpdf : gaussPDF 1.999992 ≤ 1 / 2.5 * (1 / 4.4) := by
    unfold gaussPDF
    have h0 : (0 : ℝ) ≤ (Real.sqrt (2 * Real.pi))⁻¹ := (inv_pos.mpr sqrt_two_pi_pos).le
    calc (Real.sqrt (2 * Real.pi))⁻¹ * Real.exp (-(1.999992 ^ 2 / 2))
        ≤ (Real.sqrt (2 * Real.pi))⁻¹ * (1 / 4.4) := mul_le_mul_of_nonneg_left hexp h0
      _ ≤ 1 / 2.5 * (1 / 4.4) := mul_le_mul_of_nonneg_right inv_sqrt_two_pi_le (by norm_num)
  calc (∫ t in Set.Ioi (1.999992 : ℝ), gaussPDF t)
      ≤ gaussPDF 1.999992 / 1.999992 := hm
    _ ≤ (1 / 2.5 * (1 / 4.4)) / 1.999992 := by gcongr
    _ < 1 / 20 := by norm_num

lemma tail_fourteen_lt : 1 - Phi 13.999992 < 1 / 20 := by
  rw [← tail_eq]
  have hm := tail_le_mills (show (0 : ℝ) < 13.999992 by norm_num)
  have hexp : Real.exp (-(13.999992 ^ 2 / 2)) ≤ 1 / 50 := by
    have h1 : Real.exp (-(13.999992 ^ 2 / 2)) ≤ Real.exp (-4) :=
      Real.exp_le_exp.mpr (by norm_num)
    have h2 : Real.exp (-4) ≤ 1 / 50 := by
      rw [Real.exp_neg, show ((1 : ℝ) / 50) = (50 : ℝ)⁻¹ by norm_num]
      exact (inv_le_inv₀ (Real.exp_pos 4) (by norm_num)).mpr exp_four_gt.le
    linarith
  have hpdf : gaussPDF 13.999992 ≤ 1 / 2.5 * (1 / 50) := by
    unfold gaussPDF
    have h0 : (0 : ℝ) ≤ (Real.sqrt (2 * Real.pi))⁻¹ := (inv_pos.mpr sqrt_two_pi_pos).le
    calc (Real.sqrt (2 * Real.pi))⁻¹ * Real.exp (-(13.999992 ^ 2 / 2))
        ≤ (Real.sqrt (2 * Real.pi))⁻¹ * (1 / 50) := mul_le_mul_of_nonneg_left hexp h0
      _ ≤ 1 / 2.5 * (1 / 50) := mul_le_mul_of_nonneg_right inv_sqrt_two_pi_le (by norm_num)
  calc (∫ t in Set.Ioi (13.999992 : ℝ), gaussPDF t)
      ≤ gaussPDF 13.999992 / 13.999992 := hm
    _ ≤ (1 / 2.5 * (1 / 50)) / 13.999992 := by gcongr
    _ < 1 / 20 := by norm_num

lemma two_min_two_small : 2 * min (1 - Phi 1.999992) (Phi 1.999992) < 1 / 10 := by
  have h := min_le_left (1 - Phi 1.999992) (Phi 1.999992)
  have := tail_two_lt
  linarith

lemma two_min_fourteen_small : 2 * min (1 - Phi 13.999992) (Phi 13.999992) < 1 / 10 := by
  have h := min_le_left (1 - Phi 13.999992) (Phi 13.999992)
  have := tail_fourteen_lt
  linarith

/-! ### Full runs of the pipeline on the concrete scenarios -/

lemma fm_run_A16 :
    farrington_manning g116 g216 (1 / 2) twoSidedStr (1 / 10)
    = .ok ⟨some (3 / 4), some 2, some (2 * min (1 - Phi 2) (Phi 2)),
        brentqPick (codeCiTarget (some (3 / 4)) (some (1 / 8)) (1 / 10)) (-1 + 1e-6) (3 / 4),
        brentqPick (codeCiTarget (some (3 / 4)) (some (1 / 8)) (1 / 10)) (3 / 4)
          (1 - 1e-06)⟩ := by
  unfold farrington_manning
  rw [if_neg (show ¬ casefold twoSidedStr ∉ validAlternatives from by decide)]
  rw [g116_length, g216_length, mean_g116, mean_g216, sdA16]
  simp only [ebind_ok]
  rw [show fsub (some (3 / 4)) (some 0) = some (3 / 4) from by rw [fsub_some]; norm_num]
  rw [alphaMod_two_sided, fmCI_some]
  rw [brentq_ok (tgt16_low_A (1 / 10)) (tgt16_mid_A (1 / 10)) (by
        have h1 : 2 * min (1 - Phi 13.999992) (Phi 13.999992) - 1 / 10 < 0 := by
          linarith [two_min_fourteen_small]
        have h2 : (2 * min (1 - Phi 13.999992) (Phi 13.999992) - 1 / 10) * (1 - 1 / 10) < 0 :=
          mul_neg_of_neg_of_pos h1 (by norm_num)
        exact not_lt.mpr h2.le)]
  simp only [ebind_ok]
  rw [brentq_ok (tgt16_mid_A (1 / 10)) (tgt16_high_A (1 / 10)) (by
        have h1 : 2 * min (Phi 1.999992) (1 - Phi 1.999992) - 1 / 10 < 0 := by
          rw [min_comm]
          linarith [two_min_two_small]
        have h2 : (1 - 1 / 10) * (2 * min (Phi 1.999992) (1 - Phi 1.999992) - 1 / 10) < 0 :=
          mul_neg_of_pos_of_neg (by norm_num) h1
        exact not_lt.mpr h2.le)]
  simp only [ebind_ok]
  rw [show get_z (some (3 / 4)) (1 / 2) (some (1 / 8)) = some 2 from by
        rw [get_z_some _ _ (show (1 / 8 : ℝ) ≠ 0 by norm_num)]; norm_num]
  rw [pval_two_sided, normSf_some, normCdf_some, fmin_some, fmul_some]

lemma fm_run_B16 :
    farrington_manning g216 g116 (-(1 / 2)) twoSidedStr (1 / 10)
    = .ok ⟨some (-(3 / 4)), some (-2), some (2 * min (1 - Phi (-2)) (Phi (-2))),
        brentqPick (codeCiTarget (some (-(3 / 4))) (some (1 / 8)) (1 / 10)) (-1 + 1e-6)
          (-(3 / 4)),
        brentqPick (codeCiTarget (some (-(3 / 4))) (some (1 / 8)) (1 / 10)) (-(3 / 4))
          (1 - 1e-06)⟩ := by
  unfold farrington_manning
  rw [if_neg (show ¬ casefold twoSidedStr ∉ validAlternatives from by decide)]
  rw [g116_length, g216_length, mean_g116, mean_g216, sdB16]
  simp only [ebind_ok]
  rw [show fsub (some 0) (some (3 / 4)) = some (-(3 / 4)) from by rw [fsub_some]; norm_num]
  rw [alphaMod_two_sided, fmCI_some]
  rw [brentq_ok (tgt16_low_B (1 / 10)) (tgt16_mid_B (1 / 10)) (by
        have h1 : 2 * min (1 - Phi 1.999992) (Phi 1.999992) - 1 / 10 < 0 := by
          linarith [two_min_two_small]
        have h2 : (2 * min (1 - Phi 1.999992) (Phi 1.999992) - 1 / 10) * (1 - 1 / 10) < 0 :=
          mul_neg_of_neg_of_pos h1 (by norm_num)
        exact not_lt.mpr h2.le)]
  simp only [ebind_ok]
  rw [brentq_ok (tgt16_mid_B (1 / 10)) (tgt16_high_B (1 / 10)) (by
        have h1 : 2 * min (Phi 13.999992) (1 - Phi 13.999992) - 1 / 10 < 0 := by
          rw [min_comm]
          linarith [two_min_fourteen_small]
        have h2 : (1 - 1 / 10) * (2 * min (Phi 13.999992) (1 - Phi 13.999992) - 1 / 10) < 0 :=
          mul_neg_of_pos_of_neg (by norm_num) h1
        exact not_lt.mpr h2.le)]
  simp only [ebind_ok]
  rw [show get_z (some (-(3 / 4))) (-(1 / 2)) (some (1 / 8)) = some (-2) from by
        rw [get_z_some _ _ (show (1 / 8 : ℝ) ≠ 0 by norm_num)]; norm_num]
  rw [pval_two_sided, normSf_some, normCdf_some, fmin_some, fmul_some]

/-- The first error run (claim C5): size-4 groups, `delta = 1/2`,
`alpha = 1/20`, two-sided.  The lower bracket has a sign change but the
upper one does not: the call fails at the *upper* bound. -/
lemma fm_err_run1 :
    farrington_manning [true, true, true, false] [false, false, false, false] (1 / 2)
      twoSidedStr (1 / 20) = .error .noSignChange := by
  unfold farrington_manning
  rw [if_neg (show ¬ casefold twoSidedStr ∉ validAlternatives from by decide)]
  rw [show ([true, true, true, false] : List Bool).length = 4 from rfl,
    show ([false, false, false, false] : List Bool).length = 4 from rfl,
    mean_tttf, mean_ffff, sdA]
  simp only [ebind_ok]
  rw [show fsub (some (3 / 4)) (some 0) = some (3 / 4) from by rw [fsub_some]; norm_num]
  rw [alphaMod_two_sided, fmCI_some]
  rw [brentq_ok (tgt_low_A (1 / 20)) (tgt_mid_A (1 / 20)) (by
        have h1 : 2 * min (1 - Phi 6.999996) (Phi 6.999996) - 1 / 20 < 0 := by
          linarith [two_min_far_small]
        have h2 : (2 * min (1 - Phi 6.999996) (Phi 6.999996) - 1 / 20) * (1 - 1 / 20) < 0 :=
          mul_neg_of_neg_of_pos h1 (by norm_num)
        exact not_lt.mpr h2.le)]
  simp only [ebind_ok]
  rw [brentq_err (tgt_mid_A (1 / 20)) (tgt_high_A (1 / 20)) (by
        have h1 : 0 < 2 * min (Phi 0.999996) (1 - Phi 0.999996) - 1 / 20 := by
          rw [min_comm]
          linarith [two_min_near_gt]
        exact mul_pos (by norm_num) h1)]
  rfl

/-- The second error run (claim C5): the group-swapped mirror with
`delta = -1/2`.  Here the *lower* bracket has no sign change: the call
fails at the lower bound, with the same error value as `fm_err_run1`. -/
lemma fm_err_run2 :
    farrington_manning [false, false, false, false] [true, true, true, false] (-(1 / 2))
      twoSidedStr (1 / 20) = .error .noSignChange := by
  unfold farrington_manning
  rw [if_neg (show ¬ casefold twoSidedStr ∉ validAlternatives from by decide)]
  rw [show ([true, true, true, false] : List Bool).length = 4 from rfl,
    show ([false, false, false, false] : List Bool).length = 4 from rfl,
    mean_tttf, mean_ffff, sdB]
  simp only [ebind_ok]
  rw [show fsub (some 0) (some (3 / 4)) = some (-(3 / 4)) from by rw [fsub_some]; norm_num]
  rw [alphaMod_two_sided, fmCI_some]
  rw [brentq_err (tgt_low_B (1 / 20)) (tgt_mid_B (1 / 20)) (by
        have h1 : 0 < 2 * min (1 - Phi 0.999996) (Phi 0.999996) - 1 / 20 := by
          linarith [two_min_near_gt]
        exact mul_pos h1 (by norm_num))]
  rfl

lemma meanB_of_ne_nil {g : List Bool} (h : g ≠ []) :
    meanB g = some ((g.count true : ℝ) / (g.length : ℝ)) := by
  unfold meanB
  rw [if_neg (by simpa using List.length_eq_zero.not.mpr h)]

lemma brentq_eq_left_nan {f : ℝ → F} {x1 x2 : ℝ} (h1 : f x1 = none) :
    brentq f x1 x2 = .ok (brentqPick f x1 x2) := by
  unfold brentq
  rw [h1]

lemma brentq_eq_right_nan {f : ℝ → F} {x1 x2 f1 : ℝ} (h1 : f x1 = some f1)
    (h2 : f x2 = none) : brentq f x1 x2 = .ok (brentqPick f x1 x2) := by
  unfold brentq
  rw [h1, h2]

lemma brentq_eq_somes {f : ℝ → F} {x1 x2 f1 f2 : ℝ} (h1 : f x1 = some f1)
    (h2 : f x2 = some f2) :
    brentq f x1 x2
      = if 0 < f1 * f2 then .error .noSignChange else .ok (brentqPick f x1 x2) := by
  unfold brentq
  rw [h1, h2]

/-- The value reported by the root-finder model lies in the bracket. -/
lemma brentq_mem {f : ℝ → F} {x1 x2 y : ℝ} (h : brentq f x1 x2 = .ok y) :
    y ∈ Set.uIcc x1 x2 := by
  rcases hf1 : f x1 with _ | f1
  · rw [brentq_eq_left_nan hf1] at h
    cases h
    exact brentqPick_mem f x1 x2
  · rcases hf2 : f x2 with _ | f2
    · rw [brentq_eq_right_nan hf1 hf2] at h
      cases h
      exact brentqPick_mem f x1 x2
    · rw [brentq_eq_somes hf1 hf2] at h
      by_cases hs : 0 < f1 * f2
      · rw [if_pos hs] at h
        cases h
      · rw [if_neg hs] at h
        cases h
        exact brentqPick_mem f x1 x2

/-- Unpacking a successful run: the returned record is built from the
computed difference, z-statistic, p-value and the two root-finder
outputs. -/
lemma fm_ok_elim {g1 g2 : List Bool} {delta alpha : ℝ} {alt : String} {r : FMResult}
    (h : farrington_manning g1 g2 delta alt alpha = .ok r) :
    ∃ s lo hi,
      sd_diff_ML_null g1.length g2.length (meanB g1) (meanB g2) delta = .ok s ∧
      r = ⟨fsub (meanB g1) (meanB g2),
        get_z (fsub (meanB g1) (meanB g2)) delta s,
        pValueOf alt (get_z (fsub (meanB g1) (meanB g2)) delta s), lo, hi⟩ ∧
      (∀ dr : ℝ, fsub (meanB g1) (meanB g2) = some dr →
        brentq (codeCiTarget (some dr) s (alphaModOf alt alpha)) (-1 + 1e-6) dr = .ok lo ∧
        brentq (codeCiTarget (some dr) s (alphaModOf alt alpha)) dr (1 - 1e-06) = .ok hi) := by
  unfold farrington_manning at h
  by_cases hv : casefold alt ∉ validAlternatives
  · rw [if_pos hv] at h
    cases h
  · rw [if_neg hv] at h
    rcases hsd : sd_diff_ML_null g1.length g2.length (meanB g1) (meanB g2) delta
        with e | s
    · rw [hsd, ebind_err] at h
      cases h
    · rw [hsd] at h
      simp only [ebind_ok] at h
      rcases hd : fsub (meanB g1) (meanB g2) with _ | dr
      · rw [hd, fmCI_none, ebind_ok] at h
        cases h
        refine ⟨s, -1 + 1e-6, 1 - 1e-06, rfl, by rw [← hd], ?_⟩
        intro dr hdr
        cases hdr
      · rw [hd, fmCI_some] at h
        rcases hb1 : brentq (codeCiTarget (some dr) s (alphaModOf alt alpha))
            (-1 + 1e-6) dr with e | lo
        · rw [hb1, ebind_err] at h
          cases h
        · rw [hb1, ebind_ok] at h
          rcases hb2 : brentq (codeCiTarget (some dr) s (alphaModOf alt alpha))
              dr (1 - 1e-06) with e | hi
          · rw [hb2, ebind_err] at h
            cases h
          · rw [hb2, ebind_ok] at h
            cases h
            refine ⟨s, lo, hi, rfl, by rw [← hd], ?_⟩
            intro dr' hdr'
            cases hdr'
            exact ⟨hb1, hb2⟩

/-! ### Symmetry of the solver under swapping the groups and negating delta

Swapping the groups turns `theta` into its inverse; the cubic of the
swapped problem is `1/theta` times the original cubic shifted by `delta`,
so its depressed invariants `v` and the `sqrt` radicand are unchanged and
the selected root is the original root minus `delta`. -/

lemma thetaOf_pos {n1 n2 : ℕ} (h1 : n1 ≠ 0) (h2 : n2 ≠ 0) : 0 < thetaOf n1 n2 := by
  unfold thetaOf
  exact div_pos (Nat.cast_pos.mpr (Nat.pos_of_ne_zero h2))
    (Nat.cast_pos.mpr (Nat.pos_of_ne_zero h1))

lemma thetaOf_swap (n1 n2 : ℕ) : thetaOf n2 n1 = (thetaOf n1 n2)⁻¹ := by
  unfold thetaOf
  rw [inv_div]

lemma vOf_eq_vExpr (th p1 p2 delta : ℝ) : vOf th p1 p2 delta
    = vExpr (aOf th) (bOf th p1 p2 delta) (cOf th p1 p2 delta) (dOf p1 delta) := rfl

lemma discOf_eq_dExpr (th p1 p2 delta : ℝ) : discOf th p1 p2 delta
    = dExpr (aOf th) (bOf th p1 p2 delta) (cOf th p1 p2 delta) := rfl

lemma vExpr_scale (t A B C D : ℝ) (ht : t ≠ 0) :
    vExpr (A / t) (B / t) (C / t) (D / t) = vExpr A B C D := by
  unfold vExpr
  rw [div_pow, div_pow, div_pow]
  rw [show (27 : ℝ) * (A ^ 3 / t ^ 3) = 27 * A ^ 3 / t ^ 3 from by ring,
    show (6 : ℝ) * (A ^ 2 / t ^ 2) = 6 * A ^ 2 / t ^ 2 from by ring,
    div_div_div_cancel_right₀ (pow_ne_zero 3 ht),
    show B / t * (C / t) = B * C / t ^ 2 from by ring,
    div_div_div_cancel_right₀ (pow_ne_zero 2 ht),
    show (2 : ℝ) * (A / t) = 2 * A / t from by ring,
    div_div_div_cancel_right₀ ht]

lemma vExpr_shift (A B C D e : ℝ) (hA : A ≠ 0) :
    vExpr A (B + 3 * A * e) (C + 2 * B * e + 3 * A * e ^ 2)
      (D + C * e + B * e ^ 2 + A * e ^ 3) = vExpr A B C D := by
  unfold vExpr
  field_simp
  ring

lemma dExpr_shift (A B C e : ℝ) (hA : A ≠ 0) :
    dExpr A (B + 3 * A * e) (C + 2 * B * e + 3 * A * e ^ 2) = dExpr A B C := by
  unfold dExpr
  field_simp
  ring

lemma aOf_swap_eq {th : ℝ} (h : th ≠ 0) : aOf th⁻¹ = aOf th / th := by
  unfold aOf
  field_simp
  ring

lemma bOf_swap_eq {th : ℝ} (h : th ≠ 0) (p1 p2 delta : ℝ) :
    bOf th⁻¹ p2 p1 (-delta)
      = (bOf th p1 p2 delta + 3 * aOf th * delta) / th := by
  unfold bOf aOf
  rw [eq_div_iff h]
  field_simp
  ring

lemma cOf_swap_eq {th : ℝ} (h : th ≠ 0) (p1 p2 delta : ℝ) :
    cOf th⁻¹ p2 p1 (-delta)
      = (cOf th p1 p2 delta + 2 * bOf th p1 p2 delta * delta
          + 3 * aOf th * delta ^ 2) / th := by
  unfold cOf bOf aOf
  rw [eq_div_iff h]
  field_simp
  ring

lemma dOf_swap_eq {th : ℝ} (h : th ≠ 0) (p1 p2 delta : ℝ) :
    dOf p2 (-delta)
      = (dOf p1 delta + cOf th p1 p2 delta * delta
          + bOf th p1 p2 delta * delta ^ 2 + aOf th * delta ^ 3) / th := by
  unfold dOf cOf bOf aOf
  rw [eq_div_iff h]
  ring

lemma vOf_swap {th p1 p2 delta : ℝ} (hth : 0 < th) :
    vOf th⁻¹ p2 p1 (-delta) = vOf th p1 p2 delta := by
  have h1 : th ≠ 0 := ne_of_gt hth
  have hA : aOf th ≠ 0 := ne_of_gt (show 0 < aOf th from by unfold aOf; linarith)
  rw [vOf_eq_vExpr, aOf_swap_eq h1, bOf_swap_eq h1, cOf_swap_eq h1, dOf_swap_eq h1,
    vExpr_scale th _ _ _ _ h1, vExpr_shift _ _ _ _ _ hA, ← vOf_eq_vExpr]

lemma discOf_swap {th p1 p2 delta : ℝ} (hth : 0 < th) :
    discOf th⁻¹ p2 p1 (-delta) = discOf th p1 p2 delta := by
  have h1 : th ≠ 0 := ne_of_gt hth
  have hA : aOf th ≠ 0 := ne_of_gt (show 0 < aOf th from by unfold aOf; linarith)
  have hscale : dExpr (aOf th / th) ((bOf th p1 p2 delta + 3 * aOf th * delta) / th)
      ((cOf th p1 p2 delta + 2 * bOf th p1 p2 delta * delta
        + 3 * aOf th * delta ^ 2) / th)
      = dExpr (aOf th) (bOf th p1 p2 delta + 3 * aOf th * delta)
          (cOf th p1 p2 delta + 2 * bOf th p1 p2 delta * delta
            + 3 * aOf th * delta ^ 2) := by
    unfold dExpr
    rw [div_pow, div_pow,
      show (9 : ℝ) * (aOf th ^ 2 / th ^ 2) = 9 * aOf th ^ 2 / th ^ 2 from by ring,
      div_div_div_cancel_right₀ (pow_ne_zero 2 h1),
      show (3 : ℝ) * (aOf th / th) = 3 * aOf th / th from by ring,
      div_div_div_cancel_right₀ h1]
  rw [discOf_eq_dExpr, aOf_swap_eq h1, bOf_swap_eq h1, cOf_swap_eq h1, hscale,
    dExpr_shift _ _ _ _ hA, ← discOf_eq_dExpr]

lemma uOf_swap {th p1 p2 delta : ℝ} (hth : 0 < th) :
    uOf th⁻¹ p2 p1 (-delta) = uOf th p1 p2 delta := by
  unfold uOf
  rw [vOf_swap hth, discOf_swap hth]

lemma bOver_swap {th p1 p2 delta : ℝ} (hth : 0 < th) :
    bOf th⁻¹ p2 p1 (-delta) / (3 * aOf th⁻¹)
      = bOf th p1 p2 delta / (3 * aOf th) + delta := by
  have h1 : th ≠ 0 := ne_of_gt hth
  have h2 : (1 : ℝ) + th ≠ 0 := ne_of_gt (by linarith)
  have h3 : (1 : ℝ) + th⁻¹ ≠ 0 := ne_of_gt (by have := inv_pos.mpr hth; linarith)
  unfold bOf aOf
  field_simp
  ring

lemma p1NullOf_swap {th p1 p2 delta : ℝ} (hth : 0 < th) :
    p1NullOf th⁻¹ p2 p1 (-delta) = p1NullOf th p1 p2 delta - delta := by
  unfold p1NullOf
  rw [vOf_swap hth, uOf_swap hth, bOver_swap hth]
  ring

lemma radOf_swap {n1 n2 : ℕ} {th p1 p2 delta : ℝ} (hth : 0 < th) :
    radOf n2 n1 th⁻¹ p2 p1 (-delta) = radOf n1 n2 th p1 p2 delta := by
  unfold radOf
  rw [p1NullOf_swap hth]
  ring

lemma sd_swap {n1 n2 : ℕ} (h1 : n1 ≠ 0) (h2 : n2 ≠ 0) (p1 p2 delta : ℝ) :
    sd_diff_ML_null n2 n1 (some p2) (some p1) (-delta)
      = sd_diff_ML_null n1 n2 (some p1) (some p2) delta := by
  have hth := thetaOf_pos h1 h2
  unfold sd_diff_ML_null
  rw [if_neg h2, if_neg h1]
  simp only [thetaOf_swap n1 n2, vOf_swap hth, discOf_swap hth, uOf_swap hth,
    radOf_swap hth]

lemma get_z_swap {q1 q2 delta : ℝ} (sd : F) :
    get_z (some (q2 - q1)) (-delta) sd = fneg (get_z (some (q1 - q2)) delta sd) := by
  cases sd with
  | none => rfl
  | some s =>
    by_cases hs : s = 0
    · subst hs
      unfold get_z
      rw [fsub_some, fsub_some]
      simp [fdiv, fneg]
    · rw [get_z_some _ _ hs, get_z_some _ _ hs]
      show some ((q2 - q1 - -delta) / s) = fneg (some ((q1 - q2 - delta) / s))
      unfold fneg
      rw [Option.map_some']
      congr 1
      field_simp
      ring

lemma pval_two_sided_neg (z : F) :
    pValueOf twoSidedStr (fneg z) = pValueOf twoSidedStr z := by
  rw [pval_two_sided, pval_two_sided]
  cases z with
  | none => rfl
  | some zz =>
    show fmul (some 2) (fmin (normSf (some (-zz))) (normCdf (some (-zz)))) = _
    rw [normSf_some, normCdf_some, fmin_some, fmul_some, normSf_some, normCdf_some,
      fmin_some, fmul_some, Phi_reflect]
    have h : 1 - (1 - Phi zz) = Phi zz := by ring
    rw [h, min_comm]

/-! ## The claims -/

/-- C1: the spec's confidence-interval inversion recomputes `sd_null(δ)`
at every candidate δ (`specCiTarget`), but the target the code hands to
the root-finder (`codeCiTarget`, frozen through the `args` tuple of lines
158-163) keeps `sd_diff_ml_null` fixed at the user-specified delta.  At
`p1 = 3/4`, `p2 = 0`, the user delta `1/2` gives the frozen
`sd_null = 1/4`, while at the candidate `δ = -13/24` the recomputed
solver has `v = 0` and returns NaN: the two targets differ there. -/
theorem ci_target_fixed_sd_divergence :
    sd_diff_ML_null 4 4 (some (3 / 4)) (some 0) (1 / 2) = .ok (some (1 / 4)) ∧
    specCiTarget 4 4 (some (3 / 4)) (some 0) (some (3 / 4)) (1 / 10) (-(13 / 24))
      = .ok none ∧
    Except.ok (codeCiTarget (some (3 / 4)) (some (1 / 4)) (1 / 10) (-(13 / 24)))
      ≠ specCiTarget 4 4 (some (3 / 4)) (some 0) (some (3 / 4)) (1 / 10) (-(13 / 24)) := by
  have hspec : specCiTarget 4 4 (some (3 / 4)) (some 0) (some (3 / 4)) (1 / 10)
      (-(13 / 24)) = .ok none := by
    unfold specCiTarget
    rw [sdC]
    rfl
  refine ⟨sdA, hspec, ?_⟩
  rw [hspec,
    show codeCiTarget (some (3 / 4)) (some (1 / 4)) (1 / 10) (-(13 / 24))
        = some (2 * min (1 - Phi (31 / 6)) (Phi (31 / 6)) - 1 / 10) from by
      unfold codeCiTarget
      rw [get_ci_eval _ _ _ (show (1 / 4 : ℝ) ≠ 0 by norm_num),
        show ((3 : ℝ) / 4 - -(13 / 24)) / (1 / 4) = 31 / 6 from by norm_num]]
  simp

/-- C3 counterexample: at `n1 = n2 = 4`, `p1_ml = p2_ml = 1/2`,
`delta = 0` the solver does **not** raise a division error — `u` is
NumPy-typed, `v / u**3` is `0/0 = NaN`, and the NaN is silently returned. -/
theorem half_half_solver_no_division_error :
    sd_diff_ML_null 4 4 (some (1 / 2)) (some (1 / 2)) 0 ≠ .error .zeroDivision ∧
    sd_diff_ML_null 4 4 (some (1 / 2)) (some (1 / 2)) 0 = .ok none := by
  have h := sdD (show (4 : ℕ) ≠ 0 by norm_num)
  exact ⟨by rw [h]; simp, h⟩

/-- C3 amended: for equal group sizes with `p1_ml = p2_ml = 1/2` and
`delta = 0` the intermediate `v` is exactly `0`, hence `u = sign(v)·√(...)`
is `0`, and the unguarded `v / u**3` is an invalid `0/0`; under the code's
NumPy float semantics the solver silently returns NaN instead of the valid
restricted estimate (rather than raising a division error). -/
theorem unguarded_division_yields_nan (n : ℕ) (hn : n ≠ 0) :
    vOf (thetaOf n n) (1 / 2) (1 / 2) 0 = 0 ∧
    uOf (thetaOf n n) (1 / 2) (1 / 2) 0 = 0 ∧
    sd_diff_ML_null n n (some (1 / 2)) (some (1 / 2)) 0 = .ok none := by
  have hth := theta_nn hn
  refine ⟨by rw [hth]; exact vD, ?_, sdD hn⟩
  rw [hth]
  unfold uOf
  rw [vD, Real.sign_zero, zero_mul]

theorem unguarded_division_yields_nan_witness :
    vOf (thetaOf 4 4) (1 / 2) (1 / 2) 0 = 0 ∧
    uOf (thetaOf 4 4) (1 / 2) (1 / 2) 0 = 0 ∧
    sd_diff_ML_null 4 4 (some (1 / 2)) (some (1 / 2)) 0 = .ok none :=
  unguarded_division_yields_nan 4 (by norm_num)

/-- C4: whenever the trigonometric argument `v/u³` leaves `[-1, 1]` (with
a nonnegative line-38 radicand and `v ≠ 0`, the case `disc³ < v²`), the
solver signals the math-domain `ValueError` of `math.acos`; and any solver
error propagates unchanged through the entry point (no retry, no partial
result). -/
theorem acos_domain_error_surfaced (n1 n2 : ℕ) (p1 p2 delta : ℝ)
    (g1 g2 : List Bool) (dlt alpha : ℝ) (alt : String) (e : PyErr) :
    (n1 ≠ 0 → 0 ≤ discOf (thetaOf n1 n2) p1 p2 delta →
      vOf (thetaOf n1 n2) p1 p2 delta ≠ 0 →
      discOf (thetaOf n1 n2) p1 p2 delta ^ 3 < vOf (thetaOf n1 n2) p1 p2 delta ^ 2 →
      sd_diff_ML_null n1 n2 (some p1) (some p2) delta = .error .mathDomain) ∧
    (¬ casefold alt ∉ validAlternatives →
      sd_diff_ML_null g1.length g2.length (meanB g1) (meanB g2) dlt = .error e →
      farrington_manning g1 g2 dlt alt alpha = .error e) := by
  constructor
  · intro hn h1 h2 h3
    exact sd_eval_domain rfl hn h1 h2 h3
  · intro hv hsd
    unfold farrington_manning
    rw [if_neg hv, hsd, ebind_err]

theorem acos_domain_error_surfaced_witness :
    sd_diff_ML_null 1 1 (some (219 / 100)) (some (-(569 / 100))) (1 / 2)
      = .error .mathDomain ∧
    farrington_manning [] [] 0 lessStr (1 / 20) = .error .zeroDivision := by
  constructor
  · refine (acos_domain_error_surfaced 1 1 (219 / 100) (-(569 / 100)) (1 / 2)
      [] [] 0 (1 / 20) lessStr .zeroDivision).1 (by norm_num) ?_ ?_ ?_
    · rw [theta_nn (show (1 : ℕ) ≠ 0 by norm_num), discE]
      norm_num
    · rw [theta_nn (show (1 : ℕ) ≠ 0 by norm_num), vE]
      norm_num
    · rw [theta_nn (show (1 : ℕ) ≠ 0 by norm_num), discE, vE]
      norm_num
  · exact (acos_domain_error_surfaced 1 1 (219 / 100) (-(569 / 100)) (1 / 2)
      [] [] 0 (1 / 20) lessStr .zeroDivision).2 (by decide) sd_eval_zero_div

/-- C5 counterexample: the two runs below fail at *different* bounds — in
the first the lower bracket has a sign change (the failure is at the upper
bound), in the second the lower bracket has none — yet both produce the
identical error value: the failure does not identify the problematic
bound. -/
theorem no_sign_change_error_does_not_identify_bound :
    farrington_manning [true, true, true, false] [false, false, false, false] (1 / 2)
        twoSidedStr (1 / 20) = .error .noSignChange ∧
    farrington_manning [false, false, false, false] [true, true, true, false] (-(1 / 2))
        twoSidedStr (1 / 20) = .error .noSignChange ∧
    (codeCiTarget (some (3 / 4)) (some (1 / 4)) (1 / 20) (-1 + 1e-6)).getD 0 *
        (codeCiTarget (some (3 / 4)) (some (1 / 4)) (1 / 20) (3 / 4)).getD 0 < 0 ∧
    0 < (codeCiTarget (some (-(3 / 4))) (some (1 / 4)) (1 / 20) (-1 + 1e-6)).getD 0 *
        (codeCiTarget (some (-(3 / 4))) (some (1 / 4)) (1 / 20) (-(3 / 4))).getD 0 := by
  refine ⟨fm_err_run1, fm_err_run2, ?_, ?_⟩
  · rw [tgt_low_A (1 / 20), tgt_mid_A (1 / 20)]
    simp only [Option.getD_some]
    have h1 : 2 * min (1 - Phi 6.999996) (Phi 6.999996) - 1 / 20 < 0 := by
      linarith [two_min_far_small]
    exact mul_neg_of_neg_of_pos h1 (by norm_num)
  · rw [tgt_low_B (1 / 20), tgt_mid_B (1 / 20)]
    simp only [Option.getD_some]
    have h1 : 0 < 2 * min (1 - Phi 0.999996) (Phi 0.999996) - 1 / 20 := by
      linarith [two_min_near_gt]
    exact mul_pos h1 (by norm_num)

/-- C5 amended: when the root-finding target has the same nonzero sign at
the endpoints of the lower bracket — or of the upper bracket after the
lower one succeeded — the computation fails with the root-finder's
no-sign-change `ValueError`, surfaced to the caller with no bound and no
partial result; the error value is the same for both bounds and does not
identify which bracket failed. -/
theorem no_sign_change_signalled (g1 g2 : List Bool) (delta alpha : ℝ) (alt : String)
    (dr : ℝ) (s : F) (fa fb fc : ℝ)
    (hv : ¬ casefold alt ∉ validAlternatives)
    (hsd : sd_diff_ML_null g1.length g2.length (meanB g1) (meanB g2) delta = .ok s)
    (hdiff : fsub (meanB g1) (meanB g2) = some dr)
    (ha : codeCiTarget (some dr) s (alphaModOf alt alpha) (-1 + 1e-6) = some fa)
    (hb : codeCiTarget (some dr) s (alphaModOf alt alpha) dr = some fb)
    (hc : codeCiTarget (some dr) s (alphaModOf alt alpha) (1 - 1e-06) = some fc) :
    (0 < fa * fb → farrington_manning g1 g2 delta alt alpha = .error .noSignChange) ∧
    (¬ 0 < fa * fb → 0 < fb * fc →
      farrington_manning g1 g2 delta alt alpha = .error .noSignChange) := by
  constructor
  · intro hprod
    unfold farrington_manning
    rw [if_neg hv, hsd]
    simp only [ebind_ok]
    rw [hdiff, fmCI_some, brentq_err ha hb hprod, ebind_err, ebind_err]
  · intro hprod1 hprod2
    unfold farrington_manning
    rw [if_neg hv, hsd]
    simp only [ebind_ok]
    rw [hdiff, fmCI_some, brentq_ok ha hb hprod1]
    simp only [ebind_ok]
    rw [brentq_err hb hc hprod2, ebind_err, ebind_err]

theorem no_sign_change_signalled_witness :
    farrington_manning [false, false, false, false] [true, true, true, false] (-(1 / 2))
        twoSidedStr (1 / 20) = .error .noSignChange ∧
    farrington_manning [true, true, true, false] [false, false, false, false] (1 / 2)
        twoSidedStr (1 / 20) = .error .noSignChange := by
  constructor
  · refine (no_sign_change_signalled [false, false, false, false] [true, true, true, false]
      (-(1 / 2)) (1 / 20) twoSidedStr (-(3 / 4)) (some (1 / 4)) _ _ _ (by decide)
      (by rw [show ([true, true, true, false] : List Bool).length = 4 from rfl,
            show ([false, false, false, false] : List Bool).length = 4 from rfl,
            mean_tttf, mean_ffff]
          exact sdB)
      (by rw [mean_tttf, mean_ffff, fsub_some]; norm_num)
      (by rw [alphaMod_two_sided]; exact tgt_low_B (1 / 20))
      (by rw [alphaMod_two_sided]; exact tgt_mid_B (1 / 20))
      (by rw [alphaMod_two_sided]; exact tgt_high_B (1 / 20))).1 ?_
    have h1 : 0 < 2 * min (1 - Phi 0.999996) (Phi 0.999996) - 1 / 20 := by
      linarith [two_min_near_gt]
    exact mul_pos h1 (by norm_num)
  · refine (no_sign_change_signalled [true, true, true, false] [false, false, false, false]
      (1 / 2) (1 / 20) twoSidedStr (3 / 4) (some (1 / 4)) _ _ _ (by decide)
      (by rw [show ([true, true, true, false] : List Bool).length = 4 from rfl,
            show ([false, false, false, false] : List Bool).length = 4 from rfl,
            mean_tttf, mean_ffff]
          exact sdA)
      (by rw [mean_tttf, mean_ffff, fsub_some]; norm_num)
      (by rw [alphaMod_two_sided]; exact tgt_low_A (1 / 20))
      (by rw [alphaMod_two_sided]; exact tgt_mid_A (1 / 20))
      (by rw [alphaMod_two_sided]; exact tgt_high_A (1 / 20))).2 ?_ ?_
    · have h1 : 2 * min (1 - Phi 6.999996) (Phi 6.999996) - 1 / 20 < 0 := by
        linarith [two_min_far_small]
      exact not_lt.mpr (mul_neg_of_neg_of_pos h1 (by norm_num)).le
    · have h1 : 0 < 2 * min (Phi 0.999996) (1 - Phi 0.999996) - 1 / 20 := by
        rw [min_comm]
        linarith [two_min_near_gt]
      exact mul_pos (by norm_num) h1

lemma fm_run_A16' : farrington_manning g116 g216 (1 / 2) twoSidedStr (1 / 10)
    = .ok res16A := fm_run_A16

lemma fm_run_B16' : farrington_manning g216 g116 (-(1 / 2)) twoSidedStr (1 / 10)
    = .ok res16B := fm_run_B16

/-- C7: on every successful run, the reported z-statistic is
`(diff_ml - delta) / sd_null` (the `get_z` formula applied to the observed
difference and the solver's sd), and the reported p-value is
`2·min(sf, cdf)` at `z` for the two-sided alternative, the upper tail
`sf(z)` for `greater`, and the lower tail `cdf(z)` for `less`. -/
theorem z_and_p_value_formulas (g1 g2 : List Bool) (delta alpha : ℝ) (alt : String)
    (r : FMResult) (s : F)
    (hok : farrington_manning g1 g2 delta alt alpha = .ok r)
    (hsd : sd_diff_ML_null g1.length g2.length (meanB g1) (meanB g2) delta = .ok s) :
    r.z_statistic = get_z (fsub (meanB g1) (meanB g2)) delta s ∧
    (casefold alt = twoSidedStr →
      r.p_value = fmul (some 2) (fmin (normSf r.z_statistic) (normCdf r.z_statistic))) ∧
    (casefold alt = greaterStr → r.p_value = normSf r.z_statistic) ∧
    (casefold alt = lessStr → r.p_value = normCdf r.z_statistic) := by
  obtain ⟨s', lo, hi, hsd', hr, _⟩ := fm_ok_elim hok
  rw [hsd'] at hsd
  injection hsd with hss
  subst hss
  subst hr
  refine ⟨rfl, ?_, ?_, ?_⟩
  · intro h2
    show pValueOf alt _ = _
    unfold pValueOf
    rw [if_pos h2]
  · intro h2
    show pValueOf alt _ = _
    unfold pValueOf
    rw [if_neg (by rw [h2]; decide), if_pos h2]
  · intro h2
    show pValueOf alt _ = _
    unfold pValueOf
    rw [if_neg (by rw [h2]; decide), if_neg (by rw [h2]; decide)]

theorem z_and_p_value_formulas_witness :
    res16A.z_statistic = get_z (fsub (meanB g116) (meanB g216)) (1 / 2)
      (some (1 / 8)) ∧
    (casefold twoSidedStr = twoSidedStr →
      res16A.p_value
        = fmul (some 2) (fmin (normSf res16A.z_statistic) (normCdf res16A.z_statistic))) ∧
    (casefold twoSidedStr = greaterStr → res16A.p_value = normSf res16A.z_statistic) ∧
    (casefold twoSidedStr = lessStr → res16A.p_value = normCdf res16A.z_statistic) :=
  z_and_p_value_formulas g116 g216 (1 / 2) (1 / 10) twoSidedStr res16A (some (1 / 8))
    fm_run_A16'
    (by rw [g116_length, g216_length, mean_g116, mean_g216]; exact sdA16)

/-- C8: the `alternative` argument is consulted only through `casefold`
(so any two spellings with the same casefold, e.g. `GREATER` and
`greater`, behave identically), and every string whose casefold is outside
the recognized set makes the call fail with the invalid-alternative
`ValueError` before any numeric computation. -/
theorem alternative_case_insensitive_and_validated (g1 g2 : List Bool)
    (delta alpha : ℝ) (alt alt' : String) :
    (casefold alt = casefold alt' →
      farrington_manning g1 g2 delta alt alpha
        = farrington_manning g1 g2 delta alt' alpha) ∧
    (casefold alt ∉ validAlternatives →
      farrington_manning g1 g2 delta alt alpha = .error .invalidAlternative) := by
  constructor
  · intro h
    simp only [farrington_manning, pValueOf, alphaModOf, h]
  · intro h
    unfold farrington_manning
    rw [if_pos h]

theorem alternative_case_insensitive_and_validated_witness :
    (farrington_manning [true] [true] 0 upperGreaterStr (1 / 20)
      = farrington_manning [true] [true] 0 greaterStr (1 / 20)) ∧
    farrington_manning [true] [true] 0 bogusStr (1 / 20)
      = .error .invalidAlternative :=
  ⟨(alternative_case_insensitive_and_validated [true] [true] 0 (1 / 20)
      upperGreaterStr greaterStr).1 (by decide),
   (alternative_case_insensitive_and_validated [true] [true] 0 (1 / 20)
      bogusStr greaterStr).2 (by decide)⟩

/-- C9: whenever a run succeeds with a real (non-NaN) rate difference `d`
lying inside the search region, the returned bounds satisfy
`ci_lower ≤ d ≤ ci_upper`: the lower bound is searched in
`[-1 + 1e-6, d]` and the upper bound in `[d, 1 - 1e-06]`, and the
root-finder reports a point of its bracket. -/
theorem ci_brackets_rate_difference (g1 g2 : List Bool) (delta alpha : ℝ)
    (alt : String) (r : FMResult) (d : ℝ)
    (hok : farrington_manning g1 g2 delta alt alpha = .ok r)
    (hd : r.rate_difference = some d)
    (h1 : -1 + 1e-6 ≤ d) (h2 : d ≤ 1 - 1e-06) :
    r.ci_lower ≤ d ∧ d ≤ r.ci_upper := by
  obtain ⟨s, lo, hi, hsd, hr, hbr⟩ := fm_ok_elim hok
  subst hr
  have hdiff : fsub (meanB g1) (meanB g2) = some d := hd
  obtain ⟨hb1, hb2⟩ := hbr d hdiff
  have m1 := brentq_mem hb1
  have m2 := brentq_mem hb2
  rw [Set.uIcc_of_le h1] at m1
  rw [Set.uIcc_of_le h2] at m2
  exact ⟨m1.2, m2.1⟩

theorem ci_brackets_rate_difference_witness :
    res16A.ci_lower ≤ 3 / 4 ∧ (3 / 4 : ℝ) ≤ res16A.ci_upper :=
  ci_brackets_rate_difference g116 g216 (1 / 2) (1 / 10) twoSidedStr res16A (3 / 4)
    fm_run_A16' rfl (by norm_num) (by norm_num)

/-- C10: for non-empty groups, swapping the two groups and negating delta
(two-sided alternative) negates the rate difference, flips the sign of the
z-statistic, and leaves the two-sided p-value unchanged, whenever both
calls succeed. -/
theorem swap_symmetry (g1 g2 : List Bool) (delta alpha : ℝ) (r r' : FMResult)
    (hg1 : g1 ≠ []) (hg2 : g2 ≠ [])
    (h : farrington_manning g1 g2 delta twoSidedStr alpha = .ok r)
    (h' : farrington_manning g2 g1 (-delta) twoSidedStr alpha = .ok r') :
    r'.rate_difference = fneg r.rate_difference ∧
    r'.z_statistic = fneg r.z_statistic ∧
    r'.p_value = r.p_value := by
  obtain ⟨s, lo, hi, hsd, hr, _⟩ := fm_ok_elim h
  obtain ⟨s', lo', hi', hsd', hr', _⟩ := fm_ok_elim h'
  subst hr
  subst hr'
  have hm1 := meanB_of_ne_nil hg1
  have hm2 := meanB_of_ne_nil hg2
  have hlen1 : g1.length ≠ 0 := by simpa using List.length_eq_zero.not.mpr hg1
  have hlen2 : g2.length ≠ 0 := by simpa using List.length_eq_zero.not.mpr hg2
  rw [hm1, hm2] at hsd hsd'
  rw [sd_swap hlen1 hlen2 _ _ delta, hsd] at hsd'
  injection hsd' with hss
  subst hss
  refine ⟨?_, ?_, ?_⟩
  · show fsub (meanB g2) (meanB g1) = fneg (fsub (meanB g1) (meanB g2))
    rw [hm1, hm2, fsub_some, fsub_some]
    unfold fneg
    rw [Option.map_some']
    congr 1
    ring
  · show get_z (fsub (meanB g2) (meanB g1)) (-delta) s
      = fneg (get_z (fsub (meanB g1) (meanB g2)) delta s)
    rw [hm1, hm2, fsub_some, fsub_some]
    exact get_z_swap s
  · show pValueOf twoSidedStr (get_z (fsub (meanB g2) (meanB g1)) (-delta) s)
      = pValueOf twoSidedStr (get_z (fsub (meanB g1) (meanB g2)) delta s)
    rw [hm1, hm2, fsub_some, fsub_some, get_z_swap s, pval_two_sided_neg]

theorem swap_symmetry_witness :
    res16B.rate_difference = fneg res16A.rate_difference ∧
    res16B.z_statistic = fneg res16A.z_statistic ∧
    res16B.p_value = res16A.p_value :=
  swap_symmetry g116 g216 (1 / 2) (1 / 10) res16A res16B (by decide) (by decide)
    fm_run_A16' fm_run_B16'

end

end FM
